import Mathlib

/-!
# Verification of the training-agent scheduling and approval engine

A shallow embedding of the policy layer of the training-agent repository:
the ISO-string time parsing helpers, the allowed-hours check, the conflict
checker, the spacing checker, the proposal store operations, the deletion
guard, and the auto-rescheduler, together with theorems settling the spec
claims about them.

Timestamps are modelled as the character lists the TypeScript code actually
manipulates; the regex-based field extraction of the source is implemented
as explicit scanning functions over those character lists.  JavaScript
number semantics that matter here (NaN propagation through comparisons,
`Math.floor` of a quotient, the sign convention of `%`) are modelled with
`Option Int`: `none` plays the role of NaN.
-/

namespace TrainingAgent

/-- Strings are JavaScript strings: we work on their character lists. -/
abbrev Str := List Char

/-- ASCII lower-casing of one character, as `String.prototype.toLowerCase`
acts on the ASCII range (all titles considered here are ASCII). -/
def lowerChar (c : Char) : Char :=
  if 'A' ≤ c ∧ c ≤ 'Z' then Char.ofNat (c.toNat + 32) else c

/-- `s.toLowerCase()` on ASCII strings. -/
def lowerStr (s : Str) : Str := s.map lowerChar

/-- `hay.startsWith(pre)`: `pre` is a prefix of `hay`. -/
def startsWithChars (hay pre : Str) : Bool :=
  match pre, hay with
  | [], _ => true
  | _ :: _, [] => false
  | p :: ps, h :: hs => p = h && startsWithChars hs ps

/-- `hay.includes(needle)`: substring containment, scanning left to right. -/
def containsSub (hay needle : Str) : Bool :=
  match hay with
  | [] => startsWithChars [] needle
  | _ :: hs => startsWithChars hay needle || containsSub hs needle

/-- Lexicographic strict comparison of strings, as the JavaScript `<`
operator compares strings (by char code). -/
def lexLt (a b : Str) : Bool :=
  match a, b with
  | [], [] => false
  | [], _ :: _ => true
  | _ :: _, [] => false
  | x :: xs, y :: ys => x < y || (x = y && lexLt xs ys)

/-- JavaScript `a <= b` on strings. -/
def lexLe (a b : Str) : Bool := lexLt a b || a = b

/-- The numeric value of a digit character (its code minus 48), as
`parseInt` computes it digit by digit. -/
def digitVal (c : Char) : Nat := c.toNat - 48

/-- Match attempt for the regex `/T(\d{2}):(\d{2})/` at the head of the
list: `T` followed by two digits, a colon, and two digits. -/
def timeAt (cs : Str) : Option (Nat × Nat) :=
  match cs with
  | c0 :: c1 :: c2 :: c3 :: c4 :: c5 :: _ =>
    if c0 = 'T' ∧ c1.isDigit ∧ c2.isDigit ∧ c3 = ':' ∧ c4.isDigit ∧ c5.isDigit then
      some (10 * digitVal c1 + digitVal c2, 10 * digitVal c4 + digitVal c5)
    else none
  | _ => none

/-- First match of `/T(\d{2}):(\d{2})/` in the string: the captured hour and
minute values. -/
def scanTime (cs : Str) : Option (Nat × Nat) :=
  match cs with
  | [] => none
  | _ :: rest =>
    match timeAt cs with
    | some r => some r
    | none => scanTime rest

/-- Match attempt for the regex `/(\d{4}-\d{2}-\d{2})/` at the head of the
list; returns the ten matched characters. -/
def dateAt (cs : Str) : Option Str :=
  match cs with
  | c0 :: c1 :: c2 :: c3 :: c4 :: c5 :: c6 :: c7 :: c8 :: c9 :: _ =>
    if c0.isDigit ∧ c1.isDigit ∧ c2.isDigit ∧ c3.isDigit ∧ c4 = '-' ∧
       c5.isDigit ∧ c6.isDigit ∧ c7 = '-' ∧ c8.isDigit ∧ c9.isDigit then
      some [c0, c1, c2, c3, c4, c5, c6, c7, c8, c9]
    else none
  | _ => none

/-- First match of `/(\d{4}-\d{2}-\d{2})/` in the string. -/
def scanDate (cs : Str) : Option Str :=
  match cs with
  | [] => none
  | _ :: rest =>
    match dateAt cs with
    | some r => some r
    | none => scanDate rest

/-- Numeric year, month and day of a matched `YYYY-MM-DD` character list. -/
def dateNums (ds : Str) : Nat × Nat × Nat :=
  match ds with
  | [y1, y2, y3, y4, _, m1, m2, _, d1, d2] =>
    (1000 * digitVal y1 + 100 * digitVal y2 + 10 * digitVal y3 + digitVal y4,
     10 * digitVal m1 + digitVal m2,
     10 * digitVal d1 + digitVal d2)
  | _ => (0, 0, 0)

/-- Match attempt for the shape `[+-]\d{2}:\d{2}` of a whole six-character
list (used on the reversed tail of a string for the end-anchored regex). -/
def tzShape (cs : Str) : Bool :=
  match cs with
  | [c0, c1, c2, c3, c4, c5] =>
    (c0 = '+' ∨ c0 = '-') ∧ c1.isDigit ∧ c2.isDigit ∧ c3 = ':' ∧ c4.isDigit ∧ c5.isDigit
  | _ => false

/-- The end-anchored regex `/([+-]\d{2}:\d{2})$/`: the last six characters
when they form an offset. -/
def extractTZ (cs : Str) : Option Str :=
  let tail6 := (cs.reverse.take 6).reverse
  if tzShape tail6 then some tail6 else none

/-- Match attempt for `/T(\d{2}:\d{2}:\d{2})/` at the head of the list
(used by `addDaysToISO` to carry the time part over). -/
def timeHMSAt (cs : Str) : Option Str :=
  match cs with
  | c0 :: c1 :: c2 :: c3 :: c4 :: c5 :: c6 :: c7 :: c8 :: _ =>
    if c0 = 'T' ∧ c1.isDigit ∧ c2.isDigit ∧ c3 = ':' ∧ c4.isDigit ∧ c5.isDigit ∧
       c6 = ':' ∧ c7.isDigit ∧ c8.isDigit then
      some [c1, c2, c3, c4, c5, c6, c7, c8]
    else none
  | _ => none

/-- First match of `/T(\d{2}:\d{2}:\d{2})/` in the string. -/
def scanTimeHMS (cs : Str) : Option Str :=
  match cs with
  | [] => none
  | _ :: rest =>
    match timeHMSAt cs with
    | some r => some r
    | none => scanTimeHMS rest

/-- `s.split('T')[0]`: the characters before the first `T`. -/
def splitT (cs : Str) : Str :=
  match cs with
  | [] => []
  | c :: rest => if c = 'T' then [] else c :: splitT rest

/-! ## Civil-calendar arithmetic

Day counts since the Unix epoch for Gregorian dates, used to model the
day-of-week and epoch-milliseconds computations JavaScript `Date` performs.
-/

/-- Leap year test of the Gregorian calendar. -/
def isLeap (y : Int) : Bool := y % 4 = 0 ∧ (y % 100 ≠ 0 ∨ y % 400 = 0)

/-- Number of days of month `m` (1-12) in year `y`. -/
def daysInMonth (y : Int) (m : Nat) : Nat :=
  if m = 2 then (if isLeap y then 29 else 28)
  else if m = 4 ∨ m = 6 ∨ m = 9 ∨ m = 11 then 30
  else 31

/-- `(y, m, d)` is an actual Gregorian calendar date. -/
def civilOk (y : Int) (m d : Nat) : Bool :=
  1 ≤ m ∧ m ≤ 12 ∧ 1 ≤ d ∧ d ≤ daysInMonth y m

/-- Days from 1970-01-01 to the civil date `(y, m, d)` (negative before the
epoch); the standard era-based formula. -/
def daysFromCivil (y : Int) (m d : Int) : Int :=
  let y' : Int := if m ≤ 2 then y - 1 else y
  let era : Int := Int.fdiv y' 400
  let yoe : Int := y' - era * 400
  let mp : Int := if m > 2 then m - 3 else m + 9
  let doy : Int := Int.fdiv (153 * mp + 2) 5 + d - 1
  let doe : Int := yoe * 365 + Int.fdiv yoe 4 - Int.fdiv yoe 100 + doy
  era * 146097 + doe - 719468

/-- The civil date of day number `z` (days since 1970-01-01); inverse of
`daysFromCivil`. -/
def civilFromDays (z : Int) : Int × Nat × Nat :=
  let z' := z + 719468
  let era : Int := Int.fdiv z' 146097
  let doe : Int := z' - era * 146097
  let yoe : Int := Int.fdiv (doe - Int.fdiv doe 1460 + Int.fdiv doe 36524 - Int.fdiv doe 146096) 365
  let y : Int := yoe + era * 400
  let doy : Int := doe - (365 * yoe + Int.fdiv yoe 4 - Int.fdiv yoe 100)
  let mp : Int := Int.fdiv (5 * doy + 2) 153
  let d : Int := doy - Int.fdiv (153 * mp + 2) 5 + 1
  let m : Int := if mp < 10 then mp + 3 else mp - 9
  (if m ≤ 2 then y + 1 else y, m.toNat, d.toNat)

/-- Day of the week of a civil date, `0` = Sunday through `6` = Saturday, as
JavaScript `Date.prototype.getDay` numbers days (1970-01-01 was a
Thursday). -/
def dayOfWeek (y : Int) (m d : Nat) : Int :=
  Int.emod (daysFromCivil y m d + 4) 7

/-- Modelled: `new Date(dateStr + 'T00:00:00').getDay()` for a matched
`YYYY-MM-DD` string: the weekday of the civil date, or NaN (`none`) when
the digits do not name an actual calendar date (Invalid Date). -/
def jsGetDay (y m d : Nat) : Option Int :=
  if civilOk y m d then some (dayOfWeek y m d) else none

/-! ## JavaScript number semantics (`Option Int` with `none` = NaN) -/

/-- JS addition: NaN-propagating. -/
def oadd (a b : Option Int) : Option Int :=
  match a, b with
  | some x, some y => some (x + y)
  | _, _ => none

/-- JS `Math.floor(a / b)` for integer `a` and positive integer `b`:
floor division, NaN-propagating. -/
def ofloorDiv (a : Option Int) (b : Int) : Option Int :=
  match a with
  | some x => some (Int.fdiv x b)
  | none => none

/-- JS `a % b` for integer `a` and positive integer `b`: remainder with the
sign of the dividend, NaN-propagating. -/
def orem (a : Option Int) (b : Int) : Option Int :=
  match a with
  | some x => some (Int.tmod x b)
  | none => none

/-- JS `a < b` where `a` may be NaN: any comparison with NaN is false. -/
def oltB (a : Option Int) (b : Int) : Bool :=
  match a with
  | some x => x < b
  | none => false

/-- JS `a <= b` with NaN on the left. -/
def oleB (a : Option Int) (b : Int) : Bool :=
  match a with
  | some x => x ≤ b
  | none => false

/-- JS `a > b` with NaN on the left. -/
def ogtB (a : Option Int) (b : Int) : Bool :=
  match a with
  | some x => x > b
  | none => false

/-- JS `a >= b` with NaN on the left. -/
def ogeB (a : Option Int) (b : Int) : Bool :=
  match a with
  | some x => x ≥ b
  | none => false

/-- JS `a === b` with NaN on the left (NaN equals nothing). -/
def oeqB (a : Option Int) (b : Int) : Bool :=
  match a with
  | some x => x = b
  | none => false

/-- JS `a <= b` where both sides may be NaN. -/
def oleB2 (a b : Option Int) : Bool :=
  match a, b with
  | some x, some y => x ≤ y
  | _, _ => false

/-- JS `a < b` where both sides may be NaN. -/
def oltB2 (a b : Option Int) : Bool :=
  match a, b with
  | some x, some y => x < y
  | _, _ => false

/-- JS `a > b` where both sides may be NaN. -/
def ogtB2 (a b : Option Int) : Bool :=
  match a, b with
  | some x, some y => x > y
  | _, _ => false

/-- JS `Math.max(k, a)` with a constant first argument: NaN-propagating. -/
def omax (k : Int) (a : Option Int) : Option Int :=
  match a with
  | some x => some (max k x)
  | none => none

/-! ## Rendering numbers back to strings -/

/-- Structural worker for `natToDigits`: the fuel argument dominates the
value, so the base case is never reached with a multi-digit value. -/
def natToDigitsGo (fuel : Nat) (n : Nat) : Str :=
  match fuel with
  | 0 => [Nat.digitChar n]
  | f + 1 =>
    if n < 10 then [Nat.digitChar n]
    else natToDigitsGo f (n / 10) ++ [Nat.digitChar (n % 10)]

/-- Decimal digit characters of a natural number, most significant first,
as JavaScript `String(n)` renders a nonnegative integer. -/
def natToDigits (n : Nat) : Str := natToDigitsGo n n

/-- JavaScript `String(n)` for an integer. -/
def jsIntStr (n : Int) : Str :=
  if n < 0 then '-' :: natToDigits (-n).toNat else natToDigits n.toNat

/-- JavaScript `String(n).padStart(2, '0')`; `String(NaN)` is `"NaN"`. -/
def jsPad2 (n : Option Int) : Str :=
  match n with
  | none => ['N', 'a', 'N']
  | some v =>
    let s := jsIntStr v
    if s.length < 2 then '0' :: s else s

/-- Two-digit zero-padded rendering of `n ≤ 99`. -/
def two (n : Nat) : Str := [Nat.digitChar (n / 10 % 10), Nat.digitChar (n % 10)]

/-- Four-digit zero-padded rendering of `n ≤ 9999`. -/
def four (n : Nat) : Str :=
  [Nat.digitChar (n / 1000 % 10), Nat.digitChar (n / 100 % 10),
   Nat.digitChar (n / 10 % 10), Nat.digitChar (n % 10)]

/-- The ten characters `YYYY-MM-DD` of a civil date. -/
def dateChars (y m d : Nat) : Str := four y ++ '-' :: two m ++ '-' :: two d

/-- The body of an ISO local timestamp, `YYYY-MM-DDThh:mm:ss`, without any
offset suffix. -/
def isoBody (y m d h mi s : Nat) : Str :=
  dateChars y m d ++ 'T' :: two h ++ ':' :: two mi ++ ':' :: two s

/-- A full ISO local timestamp `YYYY-MM-DDThh:mm:ss±hh:mm`; `off` is the
offset suffix (a well-formed one is six characters `±hh:mm`). -/
def mkISO (y m d h mi s : Nat) (off : Str) : Str := isoBody y m d h mi s ++ off

/-- A well-formed `±hh:mm` offset suffix with the given sign and minute
value magnitude. -/
def mkOff (neg : Bool) (oh om : Nat) : Str :=
  (if neg then '-' else '+') :: two oh ++ ':' :: two om

/-- `new Date(iso).getTime()` restricted to the string shapes this code
base feeds it: a full ISO timestamp with a numeric offset (milliseconds
since the epoch), or a bare `YYYY-MM-DD` date (UTC midnight).  Every other
shape reaching `new Date` in the flows considered here is not a valid date
string, so it is modelled as Invalid Date (NaN, `none`). -/
def jsParseDate (cs : Str) : Option Int :=
  match cs with
  | [y1, y2, y3, y4, '-', m1, m2, '-', d1, d2] =>
    if ([y1, y2, y3, y4, '-', m1, m2, '-', d1, d2].all fun c => c.isDigit ∨ c = '-') then
      let (y, m, d) := dateNums [y1, y2, y3, y4, '-', m1, m2, '-', d1, d2]
      if civilOk y m d then some (daysFromCivil y m d * 86400000) else none
    else none
  | y1 :: y2 :: y3 :: y4 :: '-' :: m1 :: m2 :: '-' :: d1 :: d2 :: 'T' ::
    h1 :: h2 :: ':' :: n1 :: n2 :: ':' :: s1 :: s2 :: off =>
    if ([y1, y2, y3, y4, m1, m2, d1, d2, h1, h2, n1, n2, s1, s2].all Char.isDigit) ∧ tzShape off then
      let (y, m, d) := dateNums [y1, y2, y3, y4, '-', m1, m2, '-', d1, d2]
      let h := 10 * digitVal h1 + digitVal h2
      let mi := 10 * digitVal n1 + digitVal n2
      let s := 10 * digitVal s1 + digitVal s2
      let offMin : Int :=
        match off with
        | sg :: o1 :: o2 :: _ :: o3 :: o4 :: _ =>
          (if sg = '-' then -1 else 1) *
            (60 * (10 * digitVal o1 + digitVal o2) + (10 * digitVal o3 + digitVal o4))
        | _ => 0
      if civilOk y m d ∧ h ≤ 23 ∧ mi ≤ 59 ∧ s ≤ 59 then
        some (((daysFromCivil y m d * 1440 + h * 60 + mi - offMin) * 60 + s) * 1000)
      else none
    else none
  | _ => none

/-! ## `approvals.ts`: time parsing and the allowed-hours policy -/

/-- The record returned by `parseTimeFromISO`; each field is an `Option`
because the `new Date` fallback can yield NaN fields. -/
structure ParsedTime where
  hour : Option Int
  minute : Option Int
  day : Option Int
deriving Repr, DecidableEq

/-- `parseTimeFromISO` of `approvals.ts` (the same helper is duplicated in
`scheduler.ts` and `index.ts`): extract hour and minute from the first
`Thh:mm` match and the weekday from the first `YYYY-MM-DD` match of the raw
string.  When the time regex does not match, the source falls back to
`new Date(iso)`; in the flows considered here such strings are not valid
date strings, so the fallback produces Invalid Date and NaN fields
(`none`). -/
def parseTimeFromISO (iso : Str) : ParsedTime :=
  match scanTime iso with
  | some (h, mi) =>
    match scanDate iso with
    | some ds =>
      let (y, mo, d) := dateNums ds
      { hour := some h, minute := some mi, day := jsGetDay y mo d }
    | none =>
      -- `new Date('' + 'T00:00:00')` is Invalid Date, so `getDay()` is NaN
      { hour := some h, minute := some mi, day := none }
  | none => { hour := none, minute := none, day := none }

/-- `withinAllowedHours` of `approvals.ts` (the authoritative strict
variant): weekday mornings 06:30-09:30, weekday evenings from 18:00,
weekends unrestricted. -/
def withinAllowedHours (startIso endIso : Str) : Bool :=
  let start := parseTimeFromISO startIso
  let en := parseTimeFromISO endIso
  let weekend := oeqB start.day 0 || oeqB start.day 6
  let morningStart := ogtB start.hour 6 || (oeqB start.hour 6 && ogeB start.minute 30)
  let morningEnd := oltB en.hour 9 || (oeqB en.hour 9 && oleB en.minute 30)
  let isMorning := morningStart && morningEnd
  if !weekend then
    if isMorning then true
    else ogeB start.hour 18
  else true

/-- Half-open interval overlap on instants,
`new Date(aStart) < new Date(bEnd) && new Date(aEnd) > new Date(bStart)`. -/
def overlaps (aStart aEnd bStart bEnd : Str) : Bool :=
  oltB2 (jsParseDate aStart) (jsParseDate bEnd) &&
  ogtB2 (jsParseDate aEnd) (jsParseDate bStart)

/-! ## Google-calendar event shapes -/

/-- JS truthiness of an optional string field (`undefined` and `''` are
falsy). -/
def truthyStr : Option Str → Bool
  | some s => !s.isEmpty
  | none => false

/-- JS `a || b` on optional string fields. -/
def jsOrStr (a b : Option Str) : Option Str := if truthyStr a then a else b

/-- The `start`/`end` object of a Google calendar event: a timed event has
`dateTime`, an all-day event has only `date`. -/
structure GTime where
  dateTime : Option Str := none
  date : Option Str := none
deriving Repr, DecidableEq

/-- A Google calendar event as consumed by the conflict checker and the
deletion guard. -/
structure GEvent where
  id : Str := []
  summary : Option Str := none
  start : GTime := {}
  gend : GTime := {}
deriving Repr, DecidableEq

/-- `ev.summary || ''`. -/
def summaryOrEmpty (ev : GEvent) : Str := (jsOrStr ev.summary (some [])).getD []

/-- `isAllDayEvent`: has `start.date` but no `start.dateTime`. -/
def isAllDayEvent (ev : GEvent) : Bool :=
  truthyStr ev.start.date && !truthyStr ev.start.dateTime

/-- The projected `{id, summary, start, end}` record the conflict checker
returns for each blocking or warning event. -/
structure EventRef where
  id : Str
  summary : Option Str
  start : GTime
  gend : GTime
deriving Repr, DecidableEq

/-- Result of `checkConflicts`: blocking timed events and non-blocking
all-day warnings. -/
structure ConflictResult where
  blocking : List EventRef
  allDayWarnings : List EventRef
deriving Repr, DecidableEq

/-- One `forEach` step of `checkConflicts`, growing the blocking and
warning accumulators. -/
def conflictStep (startIso endIso : Str) (acc : List GEvent × List GEvent)
    (ev : GEvent) : List GEvent × List GEvent :=
  let blocking := acc.1
  let warnings := acc.2
  match jsOrStr ev.start.dateTime ev.start.date, jsOrStr ev.gend.dateTime ev.gend.date with
  | some evStart, some evEnd =>
    if isAllDayEvent ev then
      -- all-day events warn (unless lunch-exempt) and never block
      let workoutDate := splitT startIso
      let allDayStart := ev.start.date.getD []
      let allDayEnd := ev.gend.date.getD []
      if lexLe allDayStart workoutDate ∧ lexLt workoutDate allDayEnd then
        if containsSub (lowerStr (summaryOrEmpty ev)) "lunch".toList then
          (blocking, warnings)
        else (blocking, warnings ++ [ev])
      else (blocking, warnings)
    else
      if !overlaps startIso endIso evStart evEnd then (blocking, warnings)
      else if containsSub (lowerStr (summaryOrEmpty ev)) "lunch".toList then
        (blocking, warnings)
      else (blocking ++ [ev], warnings)
  | _, _ => (blocking, warnings)

/-- `checkConflicts` of `approvals.ts`, with the primary-calendar events
returned by `fetchPrimaryEvents(startIso, endIso)` passed in explicitly
(the fetch is external I/O). -/
def checkConflicts (startIso endIso : Str) (primary : List GEvent) : ConflictResult :=
  let r := primary.foldl (conflictStep startIso endIso) ([], [])
  { blocking := r.1.map fun b => ⟨b.id, b.summary, b.start, b.gend⟩
    allDayWarnings := r.2.map fun w => ⟨w.id, w.summary, w.start, w.gend⟩ }

/-! ## Description completeness (`validation.ts`, bundled with the pages)

The regex tests of `validateWorkoutDescription` implemented explicitly.
Each regex is searched case-insensitively at every position of the text;
the `\s* : \s*` glue is deterministic under backtracking because the
whitespace class is disjoint from `:` and from digits, and `.+` after
`\s*` succeeds exactly when a non-line-terminator character is reachable
by skipping line terminators (every other whitespace character is itself
matched by `.`).
-/

/-- The JavaScript regex whitespace class `\s`. -/
def isJsWs (c : Char) : Bool :=
  c = ' ' ∨ c = '\t' ∨ c = '\n' ∨ c = '\r' ∨ c.toNat = 0x0b ∨ c.toNat = 0x0c ∨
  c.toNat = 0xa0 ∨ c.toNat = 0x1680 ∨ (0x2000 ≤ c.toNat ∧ c.toNat ≤ 0x200a) ∨
  c.toNat = 0x2028 ∨ c.toNat = 0x2029 ∨ c.toNat = 0x202f ∨ c.toNat = 0x205f ∨
  c.toNat = 0x3000 ∨ c.toNat = 0xfeff

/-- Greedily consume `\s*`. -/
def skipWs (cs : Str) : Str := cs.dropWhile isJsWs

/-- Case-insensitive literal match at the head of the string (the literal
is given lowercase); returns the rest on success. -/
def matchLitCI (lit cs : Str) : Option Str :=
  match lit, cs with
  | [], _ => some cs
  | _ :: _, [] => none
  | l :: ls, c :: rest => if lowerChar c = l then matchLitCI ls rest else none

/-- `\d+` at the head of the string: one or more digits, consumed
greedily; returns the rest on success. -/
def digits1 (cs : Str) : Option Str :=
  match cs with
  | [] => none
  | c :: rest => if c.isDigit then some (rest.dropWhile Char.isDigit) else none

/-- `label\s*:` at the head of the string; returns what follows the
colon. -/
def afterLabelColon (label cs : Str) : Option Str :=
  match matchLitCI label cs with
  | none => none
  | some r1 =>
    match skipWs r1 with
    | ':' :: r3 => some r3
    | _ => none

/-- `\s*.+` matched with backtracking against the rest of the string:
line terminators can only be consumed by `\s*`, and the first other
character (whitespace or not) is matched by `.`. -/
def dotPlusFrom : Str → Bool
  | [] => false
  | c :: rest =>
    if c = '\n' ∨ c = '\r' ∨ c.toNat = 0x2028 ∨ c.toNat = 0x2029 then dotPlusFrom rest
    else true

/-- Search for a match of a position matcher anywhere in the string, as
`RegExp.prototype.test` does. -/
def searchPos (p : Str → Bool) : Str → Bool
  | [] => p []
  | c :: rest => p (c :: rest) || searchPos p rest

/-- `/(duration\s*:\s*\d+\s*(min|minutes|m))/i` at one position. -/
def durationAt (cs : Str) : Bool :=
  match afterLabelColon "duration".toList cs with
  | none => false
  | some r3 =>
    match digits1 (skipWs r3) with
    | none => false
    | some r5 =>
      let r6 := skipWs r5
      (matchLitCI "min".toList r6).isSome || (matchLitCI "minutes".toList r6).isSome ||
        (matchLitCI "m".toList r6).isSome

/-- `/(label\s*:\s*.+)/i` at one position. -/
def labelDotPlusAt (label : Str) (cs : Str) : Bool :=
  match afterLabelColon label cs with
  | none => false
  | some r3 => dotPlusFrom r3

/-- `/(label\s*:\s*\d+)/i` at one position. -/
def labelDigitsAt (label : Str) (cs : Str) : Bool :=
  match afterLabelColon label cs with
  | none => false
  | some r3 => (digits1 (skipWs r3)).isSome

/-- Outcome of the description completeness check
(`DescriptionValidation` in the source). -/
structure DescCheck where
  ok : Bool
  missing : List Str
deriving Repr, DecidableEq

/-- `validateWorkoutDescription` of `validation.ts` (bundled alongside the
pages): six labeled regex checks — Duration requires digits plus a
min/minutes/m unit, TSS and kcal require digits, the rest require a
non-empty value — collecting the lowercase keys of the failed checks. -/
def validateWorkoutDescription (d : Str) : DescCheck :=
  let text := d
  let checks : List (Str × (Str → Bool)) :=
    [("duration".toList, durationAt),
     ("targets".toList, labelDotPlusAt "targets".toList),
     ("intervals".toList, labelDotPlusAt "intervals".toList),
     ("notes".toList, labelDotPlusAt "notes".toList),
     ("tss".toList, labelDigitsAt "tss".toList),
     ("kcal".toList, labelDigitsAt "kcal".toList)]
  let missing := (checks.filter fun kp => !searchPos kp.2 text).map fun kp => kp.1
  { ok := missing.isEmpty, missing := missing }

/-! ## The proposal store and its operations -/

/-- Kind-specific payload of a proposal. -/
inductive PropPayload where
  | create (title_short start_local end_local description : Str)
  | update (event_id : Str) (title_short start_local end_local description : Option Str)
  | delete (event_id : Str)
deriving Repr, DecidableEq

/-- A staged proposal.  `allDayWarnings` is only populated on create
proposals (an empty list models the field being absent).  The precomputed
display-only `diff` string is not modelled. -/
structure Proposal where
  id : Str
  createdAt : Str
  payload : PropPayload
  allDayWarnings : List EventRef := []
deriving Repr, DecidableEq

/-- The structured failure reasons of the propose operations. -/
inductive PolicyError where
  | notAuthenticated
  | missingFields
  | outsideAllowedHours
  | descriptionMissing (missing : List Str)
  | conflictsWithPrimary (blocking : List EventRef)
  | eventNotFound
  | deletionBlocked
deriving Repr, DecidableEq

/-- `proposeCreateInternal`.  External inputs are passed explicitly: the
authentication state, the primary-calendar events the conflict check
fetches, and the generated id and timestamp.  Returns the outcome and the
updated proposal store. -/
def proposeCreateInternal (tokens : Bool) (primary : List GEvent) (newId now : Str)
    (store : List Proposal) (title_short start_local end_local description : Str) :
    Except PolicyError Proposal × List Proposal :=
  if !tokens then (.error .notAuthenticated, store)
  else if title_short.isEmpty || start_local.isEmpty || end_local.isEmpty then
    (.error .missingFields, store)
  else if !withinAllowedHours start_local end_local then
    (.error .outsideAllowedHours, store)
  else
    let descCheck := validateWorkoutDescription description
    if !descCheck.ok then (.error (.descriptionMissing descCheck.missing), store)
    else
      let conflictResult := checkConflicts start_local end_local primary
      if !conflictResult.blocking.isEmpty then
        (.error (.conflictsWithPrimary conflictResult.blocking), store)
      else
        let proposal : Proposal :=
          { id := newId, createdAt := now
            payload := .create title_short start_local end_local description
            allDayWarnings := conflictResult.allDayWarnings }
        (.ok proposal, store ++ [proposal])

/-- `proposeUpdateInternal`.  `current` is the result of
`fetchTrainingEvent(event_id)`.  Hours and conflicts are checked only when
both `start_local` and `end_local` are supplied (truthy). -/
def proposeUpdateInternal (tokens : Bool) (current : Option GEvent)
    (primary : List GEvent) (newId now : Str) (store : List Proposal)
    (event_id : Str) (title_short start_local end_local description : Option Str) :
    Except PolicyError Proposal × List Proposal :=
  if !tokens then (.error .notAuthenticated, store)
  else if event_id.isEmpty then (.error .missingFields, store)
  else
    match current with
    | none => (.error .eventNotFound, store)
    | some _ =>
      let intervalCheck : Option PolicyError :=
        if truthyStr start_local && truthyStr end_local then
          if !withinAllowedHours (start_local.getD []) (end_local.getD []) then
            some .outsideAllowedHours
          else
            let conflictResult := checkConflicts (start_local.getD []) (end_local.getD []) primary
            if !conflictResult.blocking.isEmpty then
              some (.conflictsWithPrimary conflictResult.blocking)
            else none
        else none
      match intervalCheck with
      | some e => (.error e, store)
      | none =>
        let descErr : Option PolicyError :=
          match description with
          | some d =>
            let descCheck := validateWorkoutDescription d
            if !descCheck.ok then some (.descriptionMissing descCheck.missing) else none
          | none => none
        match descErr with
        | some e => (.error e, store)
        | none =>
          let proposal : Proposal :=
            { id := newId, createdAt := now
              payload := .update event_id title_short start_local end_local description }
          (.ok proposal, store ++ [proposal])

/-- The deletion guard predicate: the title contains `"race"`,
case-insensitively. -/
def titleBlocksDeletion (title : Str) : Bool :=
  containsSub (lowerStr title) ['r', 'a', 'c', 'e']

/-- `proposeDeleteInternal`.  `current` is the fetched target event. -/
def proposeDeleteInternal (tokens : Bool) (current : Option GEvent)
    (newId now : Str) (store : List Proposal) (event_id : Str) :
    Except PolicyError Proposal × List Proposal :=
  if !tokens then (.error .notAuthenticated, store)
  else if event_id.isEmpty then (.error .missingFields, store)
  else
    match current with
    | none => (.error .eventNotFound, store)
    | some ev =>
      if titleBlocksDeletion (summaryOrEmpty ev) then (.error .deletionBlocked, store)
      else
        let proposal : Proposal :=
          { id := newId, createdAt := now, payload := .delete event_id }
        (.ok proposal, store ++ [proposal])

/-- Outcome of `approveProposal`, mirroring the HTTP responses of the
handler. -/
inductive ApproveResult where
  | badRequest
  | notFound
  | approved (p : Proposal)
  | failed (err : Str)
deriving Repr, DecidableEq

/-- `approveProposal`: look up the proposal by id, perform the external
calendar commit (`commit`, which may fail), and remove the proposal from
the store only after a successful commit. -/
def approveProposal (store : List Proposal) (proposal_id : Str)
    (commit : Proposal → Except Str Unit) : ApproveResult × List Proposal :=
  if proposal_id.isEmpty then (.badRequest, store)
  else
    match store.findIdx? (fun p => p.id == proposal_id) with
    | none => (.notFound, store)
    | some idx =>
      match store[idx]? with
      | none => (.notFound, store)   -- unreachable: findIdx? returns a valid index
      | some p =>
        match commit p with
        | .ok _ => (.approved p, store.eraseIdx idx)
        | .error e => (.failed e, store)

/-! ## The direct-delete entry point (`routes.ts`) -/

/-- Outcome of the direct `deleteTrainingEvent` route. -/
inductive DeleteResult where
  | missingId
  | notAuth
  | blocked
  | removed (event_id : Str)
  | failed (err : Str)
deriving Repr, DecidableEq

/-- The direct-delete handler `deleteTrainingEvent` of `routes.ts`:
`fetched` is the outcome of `fetchTrainingEvent` (which rejects when the
event does not exist) and `delOutcome` the outcome of the external delete
call. -/
def deleteTrainingEvent (event_id : Str) (tokens : Bool)
    (fetched : Except Str GEvent) (delOutcome : Except Str Unit) : DeleteResult :=
  if event_id.isEmpty then .missingId
  else if !tokens then .notAuth
  else
    match fetched with
    | .error e => .failed e
    | .ok ev =>
      if titleBlocksDeletion (summaryOrEmpty ev) then .blocked
      else
        match delOutcome with
        | .ok _ => .removed event_id
        | .error e => .failed e

/-! ## `spacing.ts`: the spacing checker -/

/-- JS subtraction, NaN-propagating. -/
def osub (a b : Option Int) : Option Int :=
  match a, b with
  | some x, some y => some (x - y)
  | _, _ => none

/-- JS multiplication by a constant, NaN-propagating. -/
def omulK (a : Option Int) (k : Int) : Option Int :=
  match a with
  | some x => some (x * k)
  | none => none

/-- An event as the spacing checker sees it. -/
structure SEvent where
  start_local : Str
  end_local : Str
  summary : Option Str := none
deriving Repr, DecidableEq

/-- `summary || ''` for an optional summary field. -/
def orEmptyStr (o : Option Str) : Str := (jsOrStr o (some [])).getD []

/-- The minimum gap between workouts, in minutes. -/
def MIN_GAP_MINUTES : Int := 30

/-- `isBrickWorkout`: the first event's title names a bike session and the
second event's title names a run session. -/
def isBrickWorkout (event1 event2 : SEvent) : Bool :=
  let title1 := lowerStr (orEmptyStr event1.summary)
  let title2 := lowerStr (orEmptyStr event2.summary)
  (containsSub title1 "bike".toList || containsSub title1 "ride".toList ||
    containsSub title1 "cycling".toList) &&
  (containsSub title2 "run".toList || containsSub title2 "running".toList)

/-- Result of `checkEventSpacing`.  The human-readable `warnings` strings
(one pushed per conflict, display-only) are not modelled. -/
structure SpacingResult where
  valid : Bool
  conflicts : List SEvent
deriving Repr, DecidableEq

/-- One loop step of `checkEventSpacing` for a single existing event.  The
source compares the gaps in fractional minutes (`ms / 60000`); the tests
`gap >= 0` and `gap < 30` are stated here equivalently on the millisecond
difference. -/
def spacingStep (newEvent : SEvent) (conflicts : List SEvent) (existing : SEvent) :
    List SEvent :=
  let newStart := jsParseDate newEvent.start_local
  let newEnd := jsParseDate newEvent.end_local
  let existingStart := jsParseDate existing.start_local
  let existingEnd := jsParseDate existing.end_local
  if oltB2 newStart existingEnd && ogtB2 newEnd existingStart then
    conflicts ++ [existing]
  else
    let gapAfter := osub newStart existingEnd
    let conflicts1 :=
      if ogeB gapAfter 0 && oltB gapAfter (MIN_GAP_MINUTES * 60000) &&
          !isBrickWorkout existing newEvent then
        conflicts ++ [existing]
      else conflicts
    let gapBefore := osub existingStart newEnd
    if ogeB gapBefore 0 && oltB gapBefore (MIN_GAP_MINUTES * 60000) &&
        !isBrickWorkout newEvent existing then
      conflicts1 ++ [existing]
    else conflicts1

/-- `checkEventSpacing` of `spacing.ts`: overlaps always conflict; gaps
under 30 minutes conflict unless the chronological pairing is a brick. -/
def checkEventSpacing (newEvent : SEvent) (existingEvents : List SEvent) : SpacingResult :=
  let conflicts := existingEvents.foldl (spacingStep newEvent) []
  { valid := conflicts.isEmpty, conflicts := conflicts }

/-! ## `scheduler.ts`: the auto-rescheduler -/

/-- A workout as the scheduler manipulates it. -/
structure Workout where
  title_short : Str
  start_local : Str
  end_local : Str
  description : Str := []
  duration_minutes : Option Int := none
deriving Repr, DecidableEq

/-- `calculateDuration`: `Math.round((end - start) / 60000)` on the parsed
instants; `Math.round` is floor after adding one half. -/
def calculateDuration (start fin : Str) : Option Int :=
  match jsParseDate start, jsParseDate fin with
  | some s, some e => some (Int.fdiv (2 * (e - s) + 60000) 120000)
  | _, _ => none

/-- `workout.duration_minutes || calculateDuration(...)`: the stored
duration when truthy (present and nonzero), else the computed one. -/
def effDuration (w : Workout) : Option Int :=
  match w.duration_minutes with
  | some v => if v ≠ 0 then some v else calculateDuration w.start_local w.end_local
  | none => calculateDuration w.start_local w.end_local

/-- `createISOString(dateStr, hour, minute, second = 0)`: the first date
match of `dateStr`, the rendered time (zero-padded to two characters), and
the end-anchored offset of `dateStr` (default `-05:00`). -/
def createISOString (dateStr : Str) (hour minute : Option Int)
    (second : Option Int := some 0) : Str :=
  let timezone := (extractTZ dateStr).getD "-05:00".toList
  match scanDate dateStr with
  | none => dateStr
  | some date =>
    date ++ 'T' :: (jsPad2 hour ++ ':' :: jsPad2 minute ++ ':' :: jsPad2 second) ++ timezone

/-- The validity test at the head of `rescheduleToValidSlot`: weekend, or
weekday morning (start at or after 06:30 and end at or before 09:30), or
weekday evening (start at or after 18:00). -/
def isValidWorkoutTime (startIso endIso : Str) : Bool :=
  let startParsed := parseTimeFromISO startIso
  let endParsed := parseTimeFromISO endIso
  let weekend := oeqB startParsed.day 0 || oeqB startParsed.day 6
  let morningStart := ogtB startParsed.hour 6 || (oeqB startParsed.hour 6 && ogeB startParsed.minute 30)
  let morningEnd := oltB endParsed.hour 9 || (oeqB endParsed.hour 9 && oleB endParsed.minute 30)
  let isMorning := morningStart && morningEnd
  let isEvening := !weekend && ogeB startParsed.hour 18
  weekend || isMorning || isEvening

/-- `rescheduleToValidSlot` of `scheduler.ts`: keep a valid placement;
otherwise on a weekday try a 07:00 morning start, then a 06:30 fallback,
then an 18:00 evening start; on a weekend try 07:00 then 06:30 against a
noon bound, else keep the original time. -/
def rescheduleToValidSlot (w : Workout) : Workout :=
  let startParsed := parseTimeFromISO w.start_local
  let duration := effDuration w
  let weekend := oeqB startParsed.day 0 || oeqB startParsed.day 6
  if isValidWorkoutTime w.start_local w.end_local then w
  else if !weekend then
    let morningEndHour := oadd (some 7) (ofloorDiv duration 60)
    let morningEndMinute := oadd (some 0) (orem duration 60)
    let finalEndHour := oadd morningEndHour (ofloorDiv morningEndMinute 60)
    let finalEndMinute := orem morningEndMinute 60
    if oltB finalEndHour 9 || (oeqB finalEndHour 9 && oleB finalEndMinute 30) then
      { w with start_local := createISOString w.start_local (some 7) (some 0)
               end_local := createISOString w.start_local finalEndHour finalEndMinute }
    else
      let fallbackEndHour := oadd (some 6) (ofloorDiv (oadd duration (some 30)) 60)
      let fallbackEndMinute := orem (oadd duration (some 30)) 60
      if oltB fallbackEndHour 9 || (oeqB fallbackEndHour 9 && oleB fallbackEndMinute 30) then
        { w with start_local := createISOString w.start_local (some 6) (some 30)
                 end_local := createISOString w.start_local fallbackEndHour fallbackEndMinute }
      else
        let endHour := oadd (some 18) (ofloorDiv duration 60)
        let endMinute := orem duration 60
        { w with start_local := createISOString w.start_local (some 18) (some 0)
                 end_local := createISOString w.start_local endHour endMinute }
  else
    -- weekend branch of the source (unreachable in fact, because a weekend
    -- start already passes the validity test above; kept faithful)
    let morningEndHour := oadd (some 7) (ofloorDiv duration 60)
    let morningEndMinute := oadd (some 0) (orem duration 60)
    let finalEndHour := oadd morningEndHour (ofloorDiv morningEndMinute 60)
    let finalEndMinute := orem morningEndMinute 60
    if oltB finalEndHour 12 then
      { w with start_local := createISOString w.start_local (some 7) (some 0)
               end_local := createISOString w.start_local finalEndHour finalEndMinute }
    else
      let fallbackEndHour := oadd (some 6) (ofloorDiv (oadd duration (some 30)) 60)
      let fallbackEndMinute := orem (oadd duration (some 30)) 60
      if oltB fallbackEndHour 12 then
        { w with start_local := createISOString w.start_local (some 6) (some 30)
                 end_local := createISOString w.start_local fallbackEndHour fallbackEndMinute }
      else w

/-- `addDaysToISO`: re-date the string `days` days later (via the rollover
semantics of the `new Date(year, month, day)` constructor), keeping the
`Thh:mm:ss` time part (default `07:00:00`) and the end-anchored offset
(default `-05:00`). -/
def addDaysToISO (iso : Str) (days : Int) : Str :=
  match scanDate iso with
  | none => iso
  | some ds =>
    let timezone := (extractTZ iso).getD "-05:00".toList
    let (y, mo, d) := dateNums ds
    let mo0 : Int := (mo : Int) - 1
    let ny : Int := (y : Int) + Int.fdiv mo0 12
    let nm : Int := Int.emod mo0 12 + 1
    let z := daysFromCivil ny nm 1 + ((d : Int) + days - 1)
    let (ry, rm, rd) := civilFromDays z
    let time := (scanTimeHMS iso).getD "07:00:00".toList
    jsIntStr ry ++ '-' :: jsPad2 (some (rm : Int)) ++ '-' :: jsPad2 (some (rd : Int)) ++
      'T' :: time ++ timezone

/-- An existing event as passed to `findAvailableSlot`. -/
structure EEvent where
  start_local : Str
  end_local : Str
  summary : Option Str := none
deriving Repr, DecidableEq

/-- The spacing-checker view of the candidate and the existing events
inside `findAvailableSlot`. -/
def candSEvent (c : Workout) : SEvent :=
  { start_local := c.start_local, end_local := c.end_local, summary := some c.title_short }

/-- `existingEvents.map(e => ({..., summary: e.summary || ''}))`. -/
def toSEvent (e : EEvent) : SEvent :=
  { start_local := e.start_local, end_local := e.end_local, summary := some (orEmptyStr e.summary) }

/-- Stable insertion of an event into a list sorted by ascending start
instant (equal keys keep their original order), modelling the stable
JavaScript `sort` by `getTime()` difference. -/
def insertByStart (e : EEvent) : List EEvent → List EEvent
  | [] => [e]
  | x :: xs =>
    if oleB2 (jsParseDate x.start_local) (jsParseDate e.start_local) then
      x :: insertByStart e xs
    else e :: x :: xs

/-- `arr.sort((a, b) => new Date(a.start_local) - new Date(b.start_local))`. -/
def sortByStart (l : List EEvent) : List EEvent :=
  l.foldl (fun acc e => insertByStart e acc) []

/-- The early-morning slot candidates the long-weekend fallback iterates,
in source order: hours 5 and 6, minutes 0 and 30, skipping 6:00. -/
def earlySlots : List (Int × Int) := [(5, 0), (5, 30), (6, 30)]

/-- The body of one failed `findAvailableSlot` loop iteration: produce the
next candidate and the next attempt counter.  `attempt1` is the attempt
counter already incremented at the top of the iteration; `duration`,
`isLong` and `isWknd` are the loop-invariant values computed once before
the loop from the initial candidate. -/
def nextCandidate (evts : List EEvent) (duration : Option Int)
    (isLong isWknd : Bool) (attempt1 : Nat) (c : Workout) : Workout × Nat :=
  let candidateDate := splitT c.start_local
  let sameDayEvents := evts.filter fun e => startsWithChars e.start_local candidateDate
  match sortByStart sameDayEvents with
  | [] =>
    -- no same-day events: jump `attempt` days ahead at 07:00
    let nextDayISO := addDaysToISO c.start_local (attempt1 : Int)
    let newStartISO := createISOString nextDayISO (some 7) (some 0)
    let endHour3 := oadd (some 7) (ofloorDiv duration 60)
    let endMinute3 := oadd (some 0) (orem duration 60)
    let finalEndHour3 := oadd endHour3 (ofloorDiv endMinute3 60)
    let finalEndMin3 := orem endMinute3 60
    let newEndISO := createISOString newStartISO finalEndHour3 finalEndMin3
    ({ c with start_local := newStartISO, end_local := newEndISO }, attempt1)
  | firstEvent :: restSorted =>
    let sorted := firstEvent :: restSorted
    let fes := parseTimeFromISO firstEvent.start_local
    let tryBeforeStart := omax 7 fes.hour
    let endIfBefore := oadd tryBeforeStart (ofloorDiv duration 60)
    let endMinIfBefore := oadd (some (fes.minute.getD 0)) (orem duration 60)
    let calcFinalEndHour := oadd endIfBefore (ofloorDiv endMinIfBefore 60)
    let calcFinalEndMin := orem endMinIfBefore 60
    let firstEventStartMinutes := oadd (omulK fes.hour 60) fes.minute
    let candidateEndMinutes := oadd (oadd (omulK calcFinalEndHour 60) calcFinalEndMin) (some 30)
    if oleB2 candidateEndMinutes firstEventStartMinutes then
      -- strategy 1: before the first same-day event, with the 30-minute gap
      let actualStartHour :=
        if isLong && isWknd then
          omax 6 (osub tryBeforeStart (ofloorDiv (oadd duration (some 30)) 60))
        else omax 7 tryBeforeStart
      let actualStartMinute : Option Int :=
        if isLong && isWknd && oltB actualStartHour 7 then some 30 else some 0
      let newStartISO := createISOString (candidateDate ++ "T00:00:00".toList)
        actualStartHour actualStartMinute
      let recalcEndHour2 := oadd actualStartHour (ofloorDiv duration 60)
      let recalcEndMin2 := oadd actualStartMinute (orem duration 60)
      let recalcFinalEndHour2 := oadd recalcEndHour2 (ofloorDiv recalcEndMin2 60)
      let recalcFinalEndMin2 := orem recalcEndMin2 60
      let newEndISO := createISOString newStartISO recalcFinalEndHour2 recalcFinalEndMin2
      ({ c with start_local := newStartISO, end_local := newEndISO }, attempt1)
    else
      -- long weekend workouts: try a 06:30 start before the first event
      let earlyFit : Option (Str × Option Int × Option Int) :=
        if isLong && isWknd then
          let earlyEndHour := oadd (some 6) (ofloorDiv duration 60)
          let earlyEndMin := oadd (some 30) (orem duration 60)
          let earlyFinalEndHour := oadd earlyEndHour (ofloorDiv earlyEndMin 60)
          let earlyFinalEndMin := orem earlyEndMin 60
          let earlyEndMinutes := oadd (omulK earlyFinalEndHour 60) earlyFinalEndMin
          if oleB2 (oadd earlyEndMinutes (some 30)) firstEventStartMinutes then
            some (createISOString (candidateDate ++ "T00:00:00".toList) (some 6) (some 30),
              earlyFinalEndHour, earlyFinalEndMin)
          else none
        else none
      match earlyFit with
      | some (newStartISO, eh, em) =>
        ({ c with start_local := newStartISO
                  end_local := createISOString newStartISO eh em }, attempt1)
      | none =>
        -- strategy 2: after the latest same-day event
        let latestEventOnDay := sorted.foldl
          (fun latest event =>
            if ogtB2 (jsParseDate event.end_local) (jsParseDate latest.end_local) then event
            else latest)
          firstEvent
        let latestEndTime := parseTimeFromISO latestEventOnDay.end_local
        let nsm0 := oadd latestEndTime.minute (some 30)
        let (nsh1, nsm1) :=
          if ogeB nsm0 60 then (oadd latestEndTime.hour (some 1), osub nsm0 (some 60))
          else (latestEndTime.hour, nsm0)
        let endAfterHour := oadd nsh1 (ofloorDiv duration 60)
        let endAfterMin := oadd nsm1 (orem duration 60)
        let finalEndAfterHour := oadd endAfterHour (ofloorDiv endAfterMin 60)
        let finalEndAfterMin := orem endAfterMin 60
        let newStartMinutes := oadd (omulK nsh1 60) nsm1
        let newEndMinutes := oadd (omulK finalEndAfterHour 60) finalEndAfterMin
        let wouldOverlap := sorted.any fun event =>
          let es := parseTimeFromISO event.start_local
          let ee := parseTimeFromISO event.end_local
          oltB2 newStartMinutes (oadd (omulK ee.hour 60) ee.minute) &&
            ogtB2 newEndMinutes (oadd (omulK es.hour 60) es.minute)
        let (nsh2, nsm2) :=
          if !isWknd && ogeB nsh1 9 && oltB nsh1 18 then ((some 18 : Option Int), (some 0 : Option Int))
          else if !isWknd && oltB nsh1 7 then (some 7, some 0)
          else (nsh1, nsm1)
        if !wouldOverlap && (isWknd || ogeB nsh2 18 || (ogeB nsh2 7 && oltB nsh2 9)) then
          let newStartISO := createISOString (candidateDate ++ "T00:00:00".toList) nsh2 nsm2
          let endHour2 := oadd nsh2 (ofloorDiv duration 60)
          let endMinute2 := oadd nsm2 (orem duration 60)
          let finalEndHour2 := oadd endHour2 (ofloorDiv endMinute2 60)
          let finalEndMin2 := orem endMinute2 60
          let newEndISO := createISOString newStartISO finalEndHour2 finalEndMin2
          ({ c with start_local := newStartISO, end_local := newEndISO }, attempt1)
        else
          -- very early starts for long weekend workouts, before the first event
          let earlySlot :=
            if isWknd && isLong then
              earlySlots.find? fun p =>
                oleB2 (oadd (oadd (some (p.1 * 60 + p.2)) duration) (some 30)) firstEventStartMinutes
            else none
          match earlySlot with
          | some (eh, em) =>
            let newStartISO := createISOString (candidateDate ++ "T00:00:00".toList)
              (some eh) (some em)
            let earlyEndHour := oadd (some eh) (ofloorDiv duration 60)
            let earlyEndMin := oadd (some em) (orem duration 60)
            let earlyFinalEndHour := oadd earlyEndHour (ofloorDiv earlyEndMin 60)
            let earlyFinalEndMin := orem earlyEndMin 60
            let newEndISO := createISOString newStartISO earlyFinalEndHour earlyFinalEndMin
            ({ c with start_local := newStartISO, end_local := newEndISO }, attempt1)
          | none =>
            if attempt1 < 3 then
              -- move to the next day
              let nextDayISO := addDaysToISO c.start_local 1
              let ndParsed := parseTimeFromISO nextDayISO
              let isNextWeekend := oeqB ndParsed.day 0 || oeqB ndParsed.day 6
              let preferredHour : Int := if isLong && isNextWeekend then 6 else 7
              let preferredMinute : Int := if isLong && isNextWeekend then 30 else 0
              let newStartISO := createISOString nextDayISO (some preferredHour) (some preferredMinute)
              let endHour3 := oadd (some preferredHour) (ofloorDiv duration 60)
              let endMinute3 := oadd (some preferredMinute) (orem duration 60)
              let finalEndHour3 := oadd endHour3 (ofloorDiv endMinute3 60)
              let finalEndMin3 := orem endMinute3 60
              let newEndISO := createISOString newStartISO finalEndHour3 finalEndMin3
              ({ c with start_local := newStartISO, end_local := newEndISO }, attempt1)
            else
              -- burn a second attempt without changing the candidate
              (c, attempt1 + 1)

/-- The `while (attempt < maxAttempts)` loop of `findAvailableSlot`; the
structural `fuel` argument dominates the remaining budget
(`fuel ≥ maxAttempts - attempt`), so the `fuel = 0` base case is only ever
reached when the loop guard already fails.  Returns the result and the
number of loop iterations executed. -/
def findAvailableSlotGo (evts : List EEvent) (maxAttempts : Nat) (duration : Option Int)
    (isLong isWknd : Bool) : Nat → Nat → Workout → Option Workout × Nat
  | 0, _, _ => (none, 0)
  | fuel + 1, attempt, c =>
    if attempt < maxAttempts then
      let spacingCheck := checkEventSpacing (candSEvent c) (evts.map toSEvent)
      if spacingCheck.valid then (some c, 1)
      else
        let (c', attempt') := nextCandidate evts duration isLong isWknd (attempt + 1) c
        let (r, n) := findAvailableSlotGo evts maxAttempts duration isLong isWknd fuel attempt' c'
        (r, n + 1)
    else (none, 0)

/-- `findAvailableSlot` with its iteration count: snap the workout to a
valid slot, then search within the attempt budget. -/
def findAvailableSlotRun (w : Workout) (evts : List EEvent) (maxAttempts : Nat := 14) :
    Option Workout × Nat :=
  let c := rescheduleToValidSlot w
  let duration := effDuration w
  let isLong := ogeB duration 180
  let p := parseTimeFromISO c.start_local
  let isWknd := oeqB p.day 0 || oeqB p.day 6
  findAvailableSlotGo evts maxAttempts duration isLong isWknd maxAttempts 0 c

/-- `findAvailableSlot` of `scheduler.ts`. -/
def findAvailableSlot (w : Workout) (evts : List EEvent) (maxAttempts : Nat := 14) :
    Option Workout :=
  (findAvailableSlotRun w evts maxAttempts).1

/-- The number of loop iterations `findAvailableSlot` executes. -/
def findAvailableSlotIters (w : Workout) (evts : List EEvent) (maxAttempts : Nat := 14) :
    Nat :=
  (findAvailableSlotRun w evts maxAttempts).2

/-! ## Lemmas about digit rendering and regex scanning -/

theorem digitChar_isDigit_of_lt {n : Nat} (h : n < 10) :
    (Nat.digitChar n).isDigit = true := by
  interval_cases n <;> decide

theorem digitChar_ne_T {n : Nat} (h : n < 10) : Nat.digitChar n ≠ 'T' := by
  interval_cases n <;> decide

theorem digitVal_digitChar {n : Nat} (h : n < 10) : digitVal (Nat.digitChar n) = n := by
  interval_cases n <;> decide

theorem mod10_lt (k : Nat) : k % 10 < 10 := Nat.mod_lt _ (by norm_num)

theorem timeAt_cons_ne {c : Char} (h : c ≠ 'T') (cs : Str) : timeAt (c :: cs) = none := by
  rcases cs with _ | ⟨c1, _ | ⟨c2, _ | ⟨c3, _ | ⟨c4, _ | ⟨c5, rest⟩⟩⟩⟩⟩ <;> simp [timeAt, h]

theorem scanTime_cons_ne {c : Char} (h : c ≠ 'T') (cs : Str) :
    scanTime (c :: cs) = scanTime cs := by
  simp [scanTime, timeAt_cons_ne h]

theorem scanTime_cons_digit (k : Nat) (cs : Str) :
    scanTime (Nat.digitChar (k % 10) :: cs) = scanTime cs :=
  scanTime_cons_ne (digitChar_ne_T (mod10_lt k)) cs

theorem scanTime_cons_dash (cs : Str) : scanTime ('-' :: cs) = scanTime cs :=
  scanTime_cons_ne (by decide) cs

theorem scanTime_at_T (a b c e : Char) (ha : a.isDigit = true) (hb : b.isDigit = true)
    (hc : c.isDigit = true) (he : e.isDigit = true) (cs : Str) :
    scanTime ('T' :: a :: b :: ':' :: c :: e :: cs) =
      some (10 * digitVal a + digitVal b, 10 * digitVal c + digitVal e) := by
  simp [scanTime, timeAt, ha, hb, hc, he]

/-- The time regex of `parseTimeFromISO` extracts the hour and minute
digits of a well-formed ISO body, whatever characters follow it. -/
theorem scanTime_isoBody (y m d h mi s : Nat) (suffix : Str) :
    scanTime (isoBody y m d h mi s ++ suffix) =
      some (10 * (h / 10 % 10) + h % 10, 10 * (mi / 10 % 10) + mi % 10) := by
  simp only [isoBody, dateChars, four, two, List.append_assoc, List.cons_append,
    List.nil_append]
  rw [scanTime_cons_digit, scanTime_cons_digit, scanTime_cons_digit, scanTime_cons_digit,
    scanTime_cons_dash, scanTime_cons_digit, scanTime_cons_digit, scanTime_cons_dash,
    scanTime_cons_digit, scanTime_cons_digit,
    scanTime_at_T _ _ _ _ (digitChar_isDigit_of_lt (mod10_lt _))
      (digitChar_isDigit_of_lt (mod10_lt _)) (digitChar_isDigit_of_lt (mod10_lt _))
      (digitChar_isDigit_of_lt (mod10_lt _)),
    digitVal_digitChar (mod10_lt _), digitVal_digitChar (mod10_lt _),
    digitVal_digitChar (mod10_lt _), digitVal_digitChar (mod10_lt _)]

/-- The date regex matches at the very start of a well-formed ISO body. -/
theorem scanDate_isoBody (y m d h mi s : Nat) (suffix : Str) :
    scanDate (isoBody y m d h mi s ++ suffix) = some (dateChars y m d) := by
  simp only [isoBody, dateChars, four, two, List.append_assoc, List.cons_append,
    List.nil_append]
  simp [scanDate, dateAt, digitChar_isDigit_of_lt (mod10_lt _)]

theorem dateNums_dateChars {y m d : Nat} (hy : y ≤ 9999) (hm : m ≤ 99) (hd : d ≤ 99) :
    dateNums (dateChars y m d) = (y, m, d) := by
  simp only [dateChars, four, two, List.append_assoc, List.cons_append, List.nil_append,
    dateNums, digitVal_digitChar (mod10_lt _)]
  refine Prod.ext ?_ (Prod.ext ?_ ?_) <;> simp <;> omega

/-- `parseTimeFromISO` on a well-formed ISO body followed by an arbitrary
suffix: the literal hour and minute digits and the weekday of the literal
date, independent of the suffix. -/
theorem parseTimeFromISO_isoBody {y m d h mi : Nat} (s : Nat) (suffix : Str)
    (hy : y ≤ 9999) (hm : m ≤ 99) (hd : d ≤ 99) (hh : h ≤ 99) (hmi : mi ≤ 99) :
    parseTimeFromISO (isoBody y m d h mi s ++ suffix) =
      { hour := some h, minute := some mi, day := jsGetDay y m d } := by
  have h1 : 10 * (h / 10 % 10) + h % 10 = h := by omega
  have h2 : 10 * (mi / 10 % 10) + mi % 10 = mi := by omega
  rw [parseTimeFromISO, scanTime_isoBody, scanDate_isoBody, h1, h2]
  simp [dateNums_dateChars hy hm hd]

theorem extractTZ_append (body off : Str) (hlen : off.length = 6) :
    extractTZ (body ++ off) = if tzShape off then some off else none := by
  have htake : ((body ++ off).reverse.take 6).reverse = off := by
    rw [List.reverse_append, List.take_left' (by simp [hlen]), List.reverse_reverse]
  simp only [extractTZ]
  rw [htake]

theorem natToDigitsGo_lt10 (fuel n : Nat) (h : n < 10) :
    natToDigitsGo fuel n = [Nat.digitChar n] := by
  cases fuel with
  | zero => rfl
  | succ f =>
    rw [natToDigitsGo]
    simp [h]

theorem natToDigits_lt10 {n : Nat} (h : n < 10) : natToDigits n = [Nat.digitChar n] :=
  natToDigitsGo_lt10 n n h

theorem natToDigits_two_digit {n : Nat} (h1 : 10 ≤ n) (h2 : n ≤ 99) :
    natToDigits n = [Nat.digitChar (n / 10), Nat.digitChar (n % 10)] := by
  obtain ⟨k, rfl⟩ : ∃ k, n = k + 1 := ⟨n - 1, by omega⟩
  rw [natToDigits, natToDigitsGo]
  have hn : ¬ k + 1 < 10 := by omega
  simp only [hn, if_false]
  rw [natToDigitsGo_lt10 _ _ (by omega)]
  rfl

theorem natToDigits_eq_two {n : Nat} (h : n ≤ 99) :
    (if (natToDigits n).length < 2 then '0' :: natToDigits n else natToDigits n) = two n := by
  by_cases h10 : n < 10
  · rw [natToDigits_lt10 h10]
    have e1 : n / 10 % 10 = 0 := by omega
    have e2 : n % 10 = n := by omega
    simp [two, e1, e2]
    decide
  · rw [natToDigits_two_digit (by omega) h]
    have e1 : n / 10 % 10 = n / 10 := by omega
    simp [two, e1]

theorem jsPad2_eq_two {v : Int} (h0 : 0 ≤ v) (h99 : v ≤ 99) :
    jsPad2 (some v) = two v.toNat := by
  have hneg : ¬ v < 0 := by omega
  have h99' : v.toNat ≤ 99 := by omega
  simp only [jsPad2, jsIntStr, hneg, if_false]
  exact natToDigits_eq_two h99'

/-- `createISOString` applied to a well-formed ISO timestamp replaces the
time with the rendered hour and minute, keeping the date and the offset. -/
theorem createISOString_mkISO {y m d h mi s : Nat} {off : Str} {a b : Int}
    (hoff : off.length = 6) (hsh : tzShape off = true)
    (ha0 : 0 ≤ a) (ha : a ≤ 99) (hb0 : 0 ≤ b) (hb : b ≤ 99) :
    createISOString (mkISO y m d h mi s off) (some a) (some b) =
      mkISO y m d a.toNat b.toNat 0 off := by
  rw [createISOString, mkISO, extractTZ_append _ _ hoff, scanDate_isoBody]
  simp only [hsh, if_true, Option.getD_some]
  rw [jsPad2_eq_two ha0 ha, jsPad2_eq_two hb0 hb, jsPad2_eq_two (by norm_num) (by norm_num)]
  simp [mkISO, isoBody, two]

/-! ## Claim C5: the spacing checker and the brick exception -/

/-- C5: for a pair of non-overlapping workouts whose gap is under 30
minutes (1800000 ms), the spacing check reports a violation unless the
chronologically earlier workout's title matches a bike keyword and the
later one's a run keyword: when the new event follows the existing one,
validity is exactly `isBrickWorkout existing new`; when it precedes it,
validity is exactly `isBrickWorkout new existing`. -/
theorem C5_spacing_brick_exception (n x : SEvent) (sn en sx ex : Int)
    (hsn : jsParseDate n.start_local = some sn) (hen : jsParseDate n.end_local = some en)
    (hsx : jsParseDate x.start_local = some sx) (hex : jsParseDate x.end_local = some ex)
    (hnool : ¬(sn < ex ∧ en > sx)) :
    ((0 ≤ sn - ex ∧ sn - ex < 1800000 ∧ ¬(0 ≤ sx - en ∧ sx - en < 1800000)) →
      ((checkEventSpacing n [x]).valid = true ↔ isBrickWorkout x n = true)) ∧
    ((0 ≤ sx - en ∧ sx - en < 1800000 ∧ ¬(0 ≤ sn - ex ∧ sn - ex < 1800000)) →
      ((checkEventSpacing n [x]).valid = true ↔ isBrickWorkout n x = true)) := by
  have hovl : (oltB2 (jsParseDate n.start_local) (jsParseDate x.end_local) &&
      ogtB2 (jsParseDate n.end_local) (jsParseDate x.start_local)) = false := by
    rw [hsn, hen, hsx, hex]
    simp only [oltB2, ogtB2, Bool.and_eq_false_iff, decide_eq_false_iff_not]
    by_cases h1 : sn < ex
    · exact Or.inr (fun h2 => hnool ⟨h1, h2⟩)
    · exact Or.inl h1
  constructor
  · rintro ⟨h1, h2, h3⟩
    have hga : (ogeB (osub (jsParseDate n.start_local) (jsParseDate x.end_local)) 0 &&
        oltB (osub (jsParseDate n.start_local) (jsParseDate x.end_local))
          (MIN_GAP_MINUTES * 60000)) = true := by
      rw [hsn, hex]
      simp only [osub, ogeB, oltB, MIN_GAP_MINUTES, Bool.and_eq_true, decide_eq_true_eq]
      omega
    have hgb : (ogeB (osub (jsParseDate x.start_local) (jsParseDate n.end_local)) 0 &&
        oltB (osub (jsParseDate x.start_local) (jsParseDate n.end_local))
          (MIN_GAP_MINUTES * 60000)) = false := by
      rw [hsx, hen]
      simp only [osub, ogeB, oltB, MIN_GAP_MINUTES, Bool.and_eq_false_iff,
        decide_eq_false_iff_not]
      omega
    simp only [checkEventSpacing, List.foldl, spacingStep, hovl, Bool.false_eq_true,
      if_false, hga, hgb, Bool.false_and, Bool.true_and]
    cases hb : isBrickWorkout x n <;> simp [hb]
  · rintro ⟨h1, h2, h3⟩
    have hga : (ogeB (osub (jsParseDate n.start_local) (jsParseDate x.end_local)) 0 &&
        oltB (osub (jsParseDate n.start_local) (jsParseDate x.end_local))
          (MIN_GAP_MINUTES * 60000)) = false := by
      rw [hsn, hex]
      simp only [osub, ogeB, oltB, MIN_GAP_MINUTES, Bool.and_eq_false_iff,
        decide_eq_false_iff_not]
      omega
    have hgb : (ogeB (osub (jsParseDate x.start_local) (jsParseDate n.end_local)) 0 &&
        oltB (osub (jsParseDate x.start_local) (jsParseDate n.end_local))
          (MIN_GAP_MINUTES * 60000)) = true := by
      rw [hsx, hen]
      simp only [osub, ogeB, oltB, MIN_GAP_MINUTES, Bool.and_eq_true, decide_eq_true_eq]
      omega
    simp only [checkEventSpacing, List.foldl, spacingStep, hovl, Bool.false_eq_true,
      if_false, hga, hgb, Bool.false_and, Bool.true_and]
    cases hb : isBrickWorkout n x <;> simp [hb]

/-- C5 witness: a bike ending at 08:00 immediately followed by a run
starting at 08:00 passes spacing; a run immediately followed by a bike at
zero gap fails; a swim immediately followed by a run at zero gap fails. -/
theorem C5_spacing_brick_exception_witness :
    (checkEventSpacing
        ⟨"2025-01-06T08:00:00-05:00".toList, "2025-01-06T09:00:00-05:00".toList,
          some "Run — Brick".toList⟩
        [⟨"2025-01-06T07:00:00-05:00".toList, "2025-01-06T08:00:00-05:00".toList,
          some "Bike — Endurance".toList⟩]).valid = true ∧
    (checkEventSpacing
        ⟨"2025-01-06T08:00:00-05:00".toList, "2025-01-06T09:00:00-05:00".toList,
          some "Bike — Endurance".toList⟩
        [⟨"2025-01-06T07:00:00-05:00".toList, "2025-01-06T08:00:00-05:00".toList,
          some "Run — Tempo".toList⟩]).valid = false ∧
    (checkEventSpacing
        ⟨"2025-01-06T08:00:00-05:00".toList, "2025-01-06T09:00:00-05:00".toList,
          some "Run — Tempo".toList⟩
        [⟨"2025-01-06T07:00:00-05:00".toList, "2025-01-06T08:00:00-05:00".toList,
          some "Swim — Endurance".toList⟩]).valid = false := by
  refine ⟨?_, ?_, ?_⟩
  · exact ((C5_spacing_brick_exception
      ⟨"2025-01-06T08:00:00-05:00".toList, "2025-01-06T09:00:00-05:00".toList,
        some "Run — Brick".toList⟩
      ⟨"2025-01-06T07:00:00-05:00".toList, "2025-01-06T08:00:00-05:00".toList,
        some "Bike — Endurance".toList⟩
      1736168400000 1736172000000 1736164800000 1736168400000
      (by decide) (by decide) (by decide) (by decide)
      (by decide)).1 (by decide)).mpr (by decide)
  · have h := ((C5_spacing_brick_exception
      ⟨"2025-01-06T08:00:00-05:00".toList, "2025-01-06T09:00:00-05:00".toList,
        some "Bike — Endurance".toList⟩
      ⟨"2025-01-06T07:00:00-05:00".toList, "2025-01-06T08:00:00-05:00".toList,
        some "Run — Tempo".toList⟩
      1736168400000 1736172000000 1736164800000 1736168400000
      (by decide) (by decide) (by decide) (by decide)
      (by decide)).1 (by decide))
    rw [show isBrickWorkout
        ⟨"2025-01-06T07:00:00-05:00".toList, "2025-01-06T08:00:00-05:00".toList,
          some "Run — Tempo".toList⟩
        ⟨"2025-01-06T08:00:00-05:00".toList, "2025-01-06T09:00:00-05:00".toList,
          some "Bike — Endurance".toList⟩ = false from by decide] at h
    simpa using h
  · have h := ((C5_spacing_brick_exception
      ⟨"2025-01-06T08:00:00-05:00".toList, "2025-01-06T09:00:00-05:00".toList,
        some "Run — Tempo".toList⟩
      ⟨"2025-01-06T07:00:00-05:00".toList, "2025-01-06T08:00:00-05:00".toList,
        some "Swim — Endurance".toList⟩
      1736168400000 1736172000000 1736164800000 1736168400000
      (by decide) (by decide) (by decide) (by decide)
      (by decide)).1 (by decide))
    rw [show isBrickWorkout
        ⟨"2025-01-06T07:00:00-05:00".toList, "2025-01-06T08:00:00-05:00".toList,
          some "Swim — Endurance".toList⟩
        ⟨"2025-01-06T08:00:00-05:00".toList, "2025-01-06T09:00:00-05:00".toList,
          some "Run — Tempo".toList⟩ = false from by decide] at h
    simpa using h

/-! ## Claim C6: the deletion guard -/

/-- C6: an event whose title contains "race" case-insensitively is blocked
from deletion at both the direct-delete route and the propose-delete
operation, regardless of any other field; an event whose title does not
contain "race" passes the guard at both entry points. -/
theorem C6_race_deletion_guard (event_id newId now : Str) (ev : GEvent)
    (store : List Proposal) (delOutcome : Except Str Unit)
    (hid : event_id.isEmpty = false) :
    (titleBlocksDeletion (summaryOrEmpty ev) = true →
      deleteTrainingEvent event_id true (.ok ev) delOutcome = .blocked ∧
      proposeDeleteInternal true (some ev) newId now store event_id =
        (.error .deletionBlocked, store)) ∧
    (titleBlocksDeletion (summaryOrEmpty ev) = false →
      deleteTrainingEvent event_id true (.ok ev) (.ok ()) = .removed event_id ∧
      proposeDeleteInternal true (some ev) newId now store event_id =
        (.ok ⟨newId, now, .delete event_id, []⟩,
          store ++ [⟨newId, now, .delete event_id, []⟩])) := by
  constructor
  · intro hrace
    simp [deleteTrainingEvent, proposeDeleteInternal, hid, hrace]
  · intro hrace
    simp [deleteTrainingEvent, proposeDeleteInternal, hid, hrace]

/-- C6 witness: deleting "Spring Race 5k" and "Race Prep Run" is blocked at
both entry points; deleting "Tempo Run" passes the guard at both. -/
theorem C6_race_deletion_guard_witness :
    deleteTrainingEvent "e1".toList true
        (.ok { summary := some "Spring Race 5k".toList }) (.ok ()) = .blocked ∧
    deleteTrainingEvent "e1".toList true
        (.ok { summary := some "Race Prep Run".toList }) (.ok ()) = .blocked ∧
    proposeDeleteInternal true (some { summary := some "Spring Race 5k".toList })
        "p1".toList "t1".toList [] "e1".toList = (.error .deletionBlocked, []) ∧
    deleteTrainingEvent "e1".toList true
        (.ok { summary := some "Tempo Run".toList }) (.ok ()) = .removed "e1".toList ∧
    (proposeDeleteInternal true (some { summary := some "Tempo Run".toList })
        "p1".toList "t1".toList [] "e1".toList).1 =
      .ok ⟨"p1".toList, "t1".toList, .delete "e1".toList, []⟩ := by
  refine ⟨?_, ?_, ?_, ?_, ?_⟩
  · exact ((C6_race_deletion_guard "e1".toList "p1".toList "t1".toList _ [] (.ok ())
      (by decide)).1 (by decide)).1
  · exact ((C6_race_deletion_guard "e1".toList "p1".toList "t1".toList _ [] (.ok ())
      (by decide)).1 (by decide)).1
  · exact ((C6_race_deletion_guard "e1".toList "p1".toList "t1".toList _ [] (.ok ())
      (by decide)).1 (by decide)).2
  · exact ((C6_race_deletion_guard "e1".toList "p1".toList "t1".toList _ [] (.ok ())
      (by decide)).2 (by decide)).1
  · exact congrArg Prod.fst (((C6_race_deletion_guard "e1".toList "p1".toList "t1".toList
      _ [] (.ok ()) (by decide)).2 (by decide)).2)

/-! ## Claim C8: one-sided updates skip interval validation -/

/-- C8: when exactly one of `start_local` and `end_local` is supplied to
`proposeUpdateInternal`, neither the allowed-hours check nor the conflict
check runs on the new interval: the update proposal carrying the
unvalidated bound is created and stored, and the outcome is independent of
the primary calendar's contents. -/
theorem C8_one_sided_update_unvalidated (ev : GEvent) (primary1 primary2 : List GEvent)
    (newId now event_id : Str) (store : List Proposal)
    (title_short start_local end_local description : Option Str)
    (hid : event_id.isEmpty = false)
    (hone : (truthyStr start_local = true ∧ end_local = none) ∨
      (start_local = none ∧ truthyStr end_local = true))
    (hdesc : ∀ d, description = some d → (validateWorkoutDescription d).ok = true) :
    proposeUpdateInternal true (some ev) primary1 newId now store event_id
        title_short start_local end_local description =
      (.ok ⟨newId, now, .update event_id title_short start_local end_local description, []⟩,
        store ++ [⟨newId, now,
          .update event_id title_short start_local end_local description, []⟩]) ∧
    proposeUpdateInternal true (some ev) primary1 newId now store event_id
        title_short start_local end_local description =
      proposeUpdateInternal true (some ev) primary2 newId now store event_id
        title_short start_local end_local description := by
  have hboth : (truthyStr start_local && truthyStr end_local) = false := by
    rcases hone with ⟨_, h⟩ | ⟨h, _⟩ <;> simp [h, truthyStr]
  have main : ∀ primary : List GEvent,
      proposeUpdateInternal true (some ev) primary newId now store event_id
        title_short start_local end_local description =
      (.ok ⟨newId, now, .update event_id title_short start_local end_local description, []⟩,
        store ++ [⟨newId, now,
          .update event_id title_short start_local end_local description, []⟩]) := by
    intro primary
    simp only [proposeUpdateInternal, Bool.not_true, Bool.false_eq_true, if_false, hid,
      hboth]
    cases hdc : description with
    | none => simp
    | some d => simp [hdesc d hdc]
  exact ⟨main primary1, (main primary1).trans (main primary2).symm⟩

/-- C8 witness: with only `start_local` supplied (a weekday-noon bound that
would fail the allowed-hours check if it were checked), the update proposal
is created and stored, and the outcome is the same whether the primary
calendar is empty or contains an overlapping blocking event. -/
theorem C8_one_sided_update_unvalidated_witness :
    proposeUpdateInternal true (some {}) [] "p1".toList "t1".toList [] "e1".toList
        none (some "2025-01-06T12:00:00-05:00".toList) none none =
      (.ok ⟨"p1".toList, "t1".toList,
        .update "e1".toList none (some "2025-01-06T12:00:00-05:00".toList) none none, []⟩,
        [⟨"p1".toList, "t1".toList,
          .update "e1".toList none (some "2025-01-06T12:00:00-05:00".toList) none none, []⟩]) ∧
    proposeUpdateInternal true (some {}) [] "p1".toList "t1".toList [] "e1".toList
        none (some "2025-01-06T12:00:00-05:00".toList) none none =
      proposeUpdateInternal true (some {})
        [{ id := "b1".toList, summary := some "Standup".toList
           start := { dateTime := some "2025-01-06T11:30:00-05:00".toList }
           gend := { dateTime := some "2025-01-06T12:30:00-05:00".toList } }]
        "p1".toList "t1".toList [] "e1".toList
        none (some "2025-01-06T12:00:00-05:00".toList) none none :=
  C8_one_sided_update_unvalidated {} [] _ "p1".toList "t1".toList "e1".toList []
    none (some "2025-01-06T12:00:00-05:00".toList) none none
    (by decide) (Or.inl ⟨by decide, rfl⟩) (fun d h => by cases h)

/-! ## Claim C3: the approve lifecycle -/

theorem eraseIdx_id_ne_of_nodup {l : List Proposal} {i : Nat} {p : Proposal}
    (hnd : (l.map Proposal.id).Nodup) (hget : l[i]? = some p) :
    ∀ x ∈ l.eraseIdx i, x.id ≠ p.id := by
  induction l generalizing i with
  | nil => intro x hx; simp at hx
  | cons a t ih =>
    simp only [List.map_cons, List.nodup_cons, List.mem_map] at hnd
    cases i with
    | zero =>
      intro x hx heq
      simp only [List.getElem?_cons_zero, Option.some.injEq] at hget
      subst hget
      simp only [List.eraseIdx_cons_zero] at hx
      exact hnd.1 ⟨x, hx, heq⟩
    | succ j =>
      intro x hx heq
      simp only [List.getElem?_cons_succ] at hget
      simp only [List.eraseIdx_cons_succ, List.mem_cons] at hx
      rcases hx with rfl | hx
      · exact hnd.1 ⟨p, List.getElem?_mem hget, heq.symm⟩
      · exact ih hnd.2 hget x hx heq

/-- C3: `approveProposal` (i) with the id present and a successful external
commit removes the proposal from the store, and a second approval of the
same id then fails NotFound; (ii) with a failing external commit leaves the
store unchanged (the proposal stays pending); (iii) with an absent id fails
NotFound and leaves the store unchanged. -/
theorem C3_approve_lifecycle (store : List Proposal) (pid : Str)
    (commit commit2 : Proposal → Except Str Unit)
    (hpid : pid.isEmpty = false)
    (hnd : (store.map Proposal.id).Nodup) :
    (∀ idx p, store.findIdx? (fun q => q.id == pid) = some idx → store[idx]? = some p →
      (commit p = .ok () →
        approveProposal store pid commit = (.approved p, store.eraseIdx idx) ∧
        approveProposal (store.eraseIdx idx) pid commit2 =
          (.notFound, store.eraseIdx idx)) ∧
      (∀ e, commit p = .error e →
        approveProposal store pid commit = (.failed e, store))) ∧
    (store.findIdx? (fun q => q.id == pid) = none →
      approveProposal store pid commit = (.notFound, store)) := by
  constructor
  · intro idx p hfind hget
    have hpidv : p.id = pid := by
      rcases List.findIdx?_eq_some_iff_getElem.mp hfind with ⟨hlt, hp, _⟩
      have : store[idx] = p := by
        have := List.getElem?_eq_getElem hlt
        rw [this] at hget
        exact Option.some.injEq _ _ ▸ hget.symm ▸ rfl
      rw [this] at hp
      simpa using hp
    constructor
    · intro hok
      constructor
      · simp [approveProposal, hpid, hfind, hget, hok]
      · have hnone : (store.eraseIdx idx).findIdx? (fun q => q.id == pid) = none := by
          rw [List.findIdx?_eq_none_iff]
          intro x hx
          have := eraseIdx_id_ne_of_nodup hnd hget x hx
          simpa [hpidv] using this
        simp [approveProposal, hpid, hnone]
    · intro e herr
      simp [approveProposal, hpid, hfind, hget, herr]
  · intro hfind
    simp [approveProposal, hpid, hfind]

/-- C3 witness: a two-proposal store; approving the first succeeds and
removes it, approving it again fails NotFound, a failing commit leaves the
store unchanged, and an unknown id fails NotFound. -/
theorem C3_approve_lifecycle_witness :
    approveProposal
        [⟨"p1".toList, "t1".toList, .delete "e1".toList, []⟩,
         ⟨"p2".toList, "t2".toList, .delete "e2".toList, []⟩]
        "p1".toList (fun _ => .ok ()) =
      (.approved ⟨"p1".toList, "t1".toList, .delete "e1".toList, []⟩,
        [⟨"p2".toList, "t2".toList, .delete "e2".toList, []⟩]) ∧
    approveProposal [⟨"p2".toList, "t2".toList, .delete "e2".toList, []⟩]
        "p1".toList (fun _ => .ok ()) =
      (.notFound, [⟨"p2".toList, "t2".toList, .delete "e2".toList, []⟩]) ∧
    approveProposal
        [⟨"p1".toList, "t1".toList, .delete "e1".toList, []⟩,
         ⟨"p2".toList, "t2".toList, .delete "e2".toList, []⟩]
        "p1".toList (fun _ => .error "network".toList) =
      (.failed "network".toList,
        [⟨"p1".toList, "t1".toList, .delete "e1".toList, []⟩,
         ⟨"p2".toList, "t2".toList, .delete "e2".toList, []⟩]) := by
  have h := C3_approve_lifecycle
    [⟨"p1".toList, "t1".toList, .delete "e1".toList, []⟩,
     ⟨"p2".toList, "t2".toList, .delete "e2".toList, []⟩]
    "p1".toList (fun _ => .ok ()) (fun _ => .ok ()) (by decide) (by decide)
  have h2 := (h.1 0 ⟨"p1".toList, "t1".toList, .delete "e1".toList, []⟩
    (by decide) (by decide)).1 rfl
  have h3 := C3_approve_lifecycle
    [⟨"p1".toList, "t1".toList, .delete "e1".toList, []⟩,
     ⟨"p2".toList, "t2".toList, .delete "e2".toList, []⟩]
    "p1".toList (fun _ => .error "network".toList) (fun _ => .ok ())
    (by decide) (by decide)
  have h4 := (h3.1 0 ⟨"p1".toList, "t1".toList, .delete "e1".toList, []⟩
    (by decide) (by decide)).2 "network".toList rfl
  exact ⟨h2.1, h2.2, h4⟩

/-! ## Claim C7: conflict classification and proposal creation -/

theorem conflictStep_fst (s e : Str) (acc : List GEvent × List GEvent) (ev : GEvent) :
    (conflictStep s e acc ev).1 = acc.1 ∨
    ((conflictStep s e acc ev).1 = acc.1 ++ [ev] ∧ isAllDayEvent ev = false ∧
      containsSub (lowerStr (summaryOrEmpty ev)) "lunch".toList = false) := by
  unfold conflictStep
  rcases h1 : jsOrStr ev.start.dateTime ev.start.date with _ | evS
  · left; rfl
  · rcases h2 : jsOrStr ev.gend.dateTime ev.gend.date with _ | evE
    · left; rfl
    · by_cases hall : isAllDayEvent ev
      · simp only [hall, if_true]
        split <;> [skip; exact Or.inl rfl]
        split <;> exact Or.inl rfl
      · simp only [Bool.not_eq_true] at hall
        simp only [hall, Bool.false_eq_true, if_false]
        by_cases hov : overlaps s e evS evE
        · simp only [hov, Bool.not_true, Bool.false_eq_true, if_false]
          by_cases hl : containsSub (lowerStr (summaryOrEmpty ev)) ['l', 'u', 'n', 'c', 'h']
          · simp [hl]
          · simp only [Bool.not_eq_true] at hl
            simp [hl, hall]
        · simp only [Bool.not_eq_true] at hov
          simp [hov]

theorem blocking_mem (s e : Str) :
    ∀ (l : List GEvent) (acc : List GEvent × List GEvent) (x : GEvent),
      x ∈ (l.foldl (conflictStep s e) acc).1 →
      x ∈ acc.1 ∨ (x ∈ l ∧ isAllDayEvent x = false ∧
        containsSub (lowerStr (summaryOrEmpty x)) "lunch".toList = false) := by
  intro l
  induction l with
  | nil => intro acc x hx; exact Or.inl hx
  | cons a t ih =>
    intro acc x hx
    rw [List.foldl_cons] at hx
    rcases ih (conflictStep s e acc a) x hx with hacc | ⟨hmem, hcond⟩
    · rcases conflictStep_fst s e acc a with hf | ⟨hf, hcond⟩
      · rw [hf] at hacc
        exact Or.inl hacc
      · rw [hf, List.mem_append] at hacc
        rcases hacc with h | h
        · exact Or.inl h
        · simp only [List.mem_singleton] at h
          subst h
          exact Or.inr ⟨List.mem_cons_self _ _, hcond⟩
    · exact Or.inr ⟨List.mem_cons_of_mem _ hmem, hcond⟩

/-- C7: every blocking entry of the conflict checker comes from a
non-all-day primary event whose title does not contain "lunch" (so
overlapping "lunch" events and all-day events never block), and
`proposeCreateInternal` — once the field, hours and description checks
pass — fails with the conflict error exactly when the blocking list is
non-empty, while a candidate with only all-day warnings still produces a
stored proposal carrying those warnings. -/
theorem C7_lunch_allday_conflict_policy (start_local end_local : Str)
    (primary : List GEvent) (title_short description : Str) (newId now : Str)
    (store : List Proposal)
    (htitle : title_short.isEmpty = false) (hstart : start_local.isEmpty = false)
    (hend : end_local.isEmpty = false)
    (hhours : withinAllowedHours start_local end_local = true)
    (hdesc : (validateWorkoutDescription description).ok = true) :
    (∀ b ∈ (checkConflicts start_local end_local primary).blocking,
      ∃ ev ∈ primary, b = ⟨ev.id, ev.summary, ev.start, ev.gend⟩ ∧
        isAllDayEvent ev = false ∧
        containsSub (lowerStr (summaryOrEmpty ev)) "lunch".toList = false) ∧
    ((checkConflicts start_local end_local primary).blocking = [] →
      proposeCreateInternal true primary newId now store title_short start_local
          end_local description =
        (.ok ⟨newId, now, .create title_short start_local end_local description,
            (checkConflicts start_local end_local primary).allDayWarnings⟩,
          store ++ [⟨newId, now, .create title_short start_local end_local description,
            (checkConflicts start_local end_local primary).allDayWarnings⟩])) ∧
    ((checkConflicts start_local end_local primary).blocking ≠ [] →
      proposeCreateInternal true primary newId now store title_short start_local
          end_local description =
        (.error (.conflictsWithPrimary
          (checkConflicts start_local end_local primary).blocking), store)) := by
  refine ⟨?_, ?_, ?_⟩
  · intro b hb
    simp only [checkConflicts, List.mem_map] at hb
    rcases hb with ⟨ev, hev, hproj⟩
    rcases blocking_mem start_local end_local primary ([], []) ev hev with h | ⟨hmem, h1, h2⟩
    · simp at h
    · exact ⟨ev, hmem, hproj.symm, h1, h2⟩
  · intro hempty
    simp [proposeCreateInternal, htitle, hstart, hend, hhours, hdesc, hempty]
  · intro hne
    have : (checkConflicts start_local end_local primary).blocking.isEmpty = false := by
      cases h : (checkConflicts start_local end_local primary).blocking with
      | nil => exact absurd h hne
      | cons a t => simp [h]
    simp [proposeCreateInternal, htitle, hstart, hend, hhours, hdesc, this]

/-- C7 witness: an overlapping timed "Team Lunch" event and an all-day
event produce no blocking entries — the proposal is created and carries the
all-day warning — while an overlapping timed "Standup" event blocks with
the conflict error. -/
theorem C7_lunch_allday_conflict_policy_witness :
    (checkConflicts "2025-01-06T07:00:00-05:00".toList "2025-01-06T08:00:00-05:00".toList
      [{ id := "g1".toList, summary := some "Team Lunch".toList
         start := { dateTime := some "2025-01-06T07:00:00-05:00".toList }
         gend := { dateTime := some "2025-01-06T08:00:00-05:00".toList } },
       { id := "g2".toList, summary := some "Conference".toList
         start := { date := some "2025-01-06".toList }
         gend := { date := some "2025-01-07".toList } }]).blocking = [] ∧
    (proposeCreateInternal true
      [{ id := "g1".toList, summary := some "Team Lunch".toList
         start := { dateTime := some "2025-01-06T07:00:00-05:00".toList }
         gend := { dateTime := some "2025-01-06T08:00:00-05:00".toList } },
       { id := "g2".toList, summary := some "Conference".toList
         start := { date := some "2025-01-06".toList }
         gend := { date := some "2025-01-07".toList } }]
      "p1".toList "t1".toList [] "Run".toList
      "2025-01-06T07:00:00-05:00".toList "2025-01-06T08:00:00-05:00".toList
      "Duration: 60 min Targets: Z2 Intervals: 1x60 Notes: easy TSS: 50 kcal: 500".toList) =
      (.ok ⟨"p1".toList, "t1".toList,
        .create "Run".toList "2025-01-06T07:00:00-05:00".toList
          "2025-01-06T08:00:00-05:00".toList
          "Duration: 60 min Targets: Z2 Intervals: 1x60 Notes: easy TSS: 50 kcal: 500".toList,
        [⟨"g2".toList, some "Conference".toList, { date := some "2025-01-06".toList },
          { date := some "2025-01-07".toList }⟩]⟩,
       [⟨"p1".toList, "t1".toList,
        .create "Run".toList "2025-01-06T07:00:00-05:00".toList
          "2025-01-06T08:00:00-05:00".toList
          "Duration: 60 min Targets: Z2 Intervals: 1x60 Notes: easy TSS: 50 kcal: 500".toList,
        [⟨"g2".toList, some "Conference".toList, { date := some "2025-01-06".toList },
          { date := some "2025-01-07".toList }⟩]⟩]) ∧
    (proposeCreateInternal true
      [{ id := "g3".toList, summary := some "Standup".toList
         start := { dateTime := some "2025-01-06T07:30:00-05:00".toList }
         gend := { dateTime := some "2025-01-06T08:30:00-05:00".toList } }]
      "p1".toList "t1".toList [] "Run".toList
      "2025-01-06T07:00:00-05:00".toList "2025-01-06T08:00:00-05:00".toList
      "Duration: 60 min Targets: Z2 Intervals: 1x60 Notes: easy TSS: 50 kcal: 500".toList).1 =
      .error (.conflictsWithPrimary
        [⟨"g3".toList, some "Standup".toList,
          { dateTime := some "2025-01-06T07:30:00-05:00".toList },
          { dateTime := some "2025-01-06T08:30:00-05:00".toList }⟩]) := by
  refine ⟨by decide, ?_, ?_⟩
  · have h := (C7_lunch_allday_conflict_policy "2025-01-06T07:00:00-05:00".toList
      "2025-01-06T08:00:00-05:00".toList
      [{ id := "g1".toList, summary := some "Team Lunch".toList
         start := { dateTime := some "2025-01-06T07:00:00-05:00".toList }
         gend := { dateTime := some "2025-01-06T08:00:00-05:00".toList } },
       { id := "g2".toList, summary := some "Conference".toList
         start := { date := some "2025-01-06".toList }
         gend := { date := some "2025-01-07".toList } }]
      "Run".toList
      "Duration: 60 min Targets: Z2 Intervals: 1x60 Notes: easy TSS: 50 kcal: 500".toList
      "p1".toList "t1".toList [] (by decide) (by decide) (by decide) (by decide)
      (by decide)).2.1 (by decide)
    exact h.trans rfl
  · have h := (C7_lunch_allday_conflict_policy "2025-01-06T07:00:00-05:00".toList
      "2025-01-06T08:00:00-05:00".toList
      [{ id := "g3".toList, summary := some "Standup".toList
         start := { dateTime := some "2025-01-06T07:30:00-05:00".toList }
         gend := { dateTime := some "2025-01-06T08:30:00-05:00".toList } }]
      "Run".toList
      "Duration: 60 min Targets: Z2 Intervals: 1x60 Notes: easy TSS: 50 kcal: 500".toList
      "p1".toList "t1".toList [] (by decide) (by decide) (by decide) (by decide)
      (by decide)).2.2 (by decide)
    rw [h]
    rfl

/-! ## Claim C2: the auto-rescheduler terminates within the budget -/

theorem findAvailableSlotGo_iters_le (evts : List EEvent) (m : Nat) (d : Option Int)
    (il iw : Bool) : ∀ (fuel attempt : Nat) (c : Workout),
    (findAvailableSlotGo evts m d il iw fuel attempt c).2 ≤ fuel := by
  intro fuel
  induction fuel with
  | zero => intro attempt c; simp [findAvailableSlotGo]
  | succ f ih =>
    intro attempt c
    rw [findAvailableSlotGo]
    by_cases hlt : attempt < m
    · simp only [hlt, if_true]
      by_cases hv : (checkEventSpacing (candSEvent c) (evts.map toSEvent)).valid
      · simp [hv]
      · simp only [Bool.not_eq_true] at hv
        simp only [hv, Bool.false_eq_true, if_false]
        have := ih (nextCandidate evts d il iw (attempt + 1) c).2
          (nextCandidate evts d il iw (attempt + 1) c).1
        omega
    · simp [hlt]

/-- C2: `findAvailableSlot` executes at most `maxAttempts` loop iterations
(so it terminates on every input), a zero budget immediately yields `none`,
and whenever the attempt counter has reached the budget the loop exits with
`none` — failure is reported rather than looping forever. -/
theorem C2_reschedule_budget_termination (w : Workout) (evts : List EEvent) (m : Nat) :
    findAvailableSlotIters w evts m ≤ m ∧
    findAvailableSlot w evts 0 = none ∧
    (∀ (d : Option Int) (il iw : Bool) (fuel attempt : Nat) (c : Workout), m ≤ attempt →
      findAvailableSlotGo evts m d il iw fuel attempt c = (none, 0)) := by
  refine ⟨findAvailableSlotGo_iters_le evts m _ _ _ m 0 _, ?_, ?_⟩
  · simp [findAvailableSlot, findAvailableSlotRun, findAvailableSlotGo]
  · intro d il iw fuel attempt c hle
    cases fuel with
    | zero => rw [findAvailableSlotGo]
    | succ f =>
      rw [findAvailableSlotGo]
      have hnlt : ¬ attempt < m := by omega
      simp [hnlt]

/-- C2 witness: on a concrete workout the iteration count stays within the
default budget of 14, a zero budget returns `none` at once, and a loop
state whose attempt counter has reached the budget exits with `none`. -/
theorem C2_reschedule_budget_termination_witness :
    findAvailableSlotIters
        { title_short := "Run".toList, start_local := "2025-01-06T07:00:00-05:00".toList
          end_local := "2025-01-06T08:00:00-05:00".toList } [] 14 ≤ 14 ∧
    findAvailableSlot
        { title_short := "Run".toList, start_local := "2025-01-06T07:00:00-05:00".toList
          end_local := "2025-01-06T08:00:00-05:00".toList } [] 0 = none ∧
    findAvailableSlotGo [] 14 none false false 5 14
        { title_short := "Run".toList, start_local := "2025-01-06T07:00:00-05:00".toList
          end_local := "2025-01-06T08:00:00-05:00".toList } = (none, 0) :=
  ⟨(C2_reschedule_budget_termination
      { title_short := "Run".toList, start_local := "2025-01-06T07:00:00-05:00".toList
        end_local := "2025-01-06T08:00:00-05:00".toList } [] 14).1,
   (C2_reschedule_budget_termination
      { title_short := "Run".toList, start_local := "2025-01-06T07:00:00-05:00".toList
        end_local := "2025-01-06T08:00:00-05:00".toList } [] 0).2.1,
   (C2_reschedule_budget_termination
      { title_short := "Run".toList, start_local := "2025-01-06T07:00:00-05:00".toList
        end_local := "2025-01-06T08:00:00-05:00".toList } [] 14).2.2 none false false 5 14
      _ (by norm_num)⟩

/-! ## Claim C1: re-validation of auto-rescheduler candidates -/

theorem findAvailableSlotGo_some_spacing (evts : List EEvent) (m : Nat) (d : Option Int)
    (il iw : Bool) : ∀ (fuel attempt : Nat) (c out : Workout) (n : Nat),
    findAvailableSlotGo evts m d il iw fuel attempt c = (some out, n) →
    (checkEventSpacing (candSEvent out) (evts.map toSEvent)).valid = true := by
  intro fuel
  induction fuel with
  | zero => intro attempt c out n h; simp [findAvailableSlotGo] at h
  | succ f ih =>
    intro attempt c out n h
    rw [findAvailableSlotGo] at h
    by_cases hlt : attempt < m
    · simp only [hlt, if_true] at h
      by_cases hv : (checkEventSpacing (candSEvent c) (evts.map toSEvent)).valid
      · simp only [hv, if_true, Prod.mk.injEq, Option.some.injEq] at h
        rw [← h.1]
        exact hv
      · simp only [Bool.not_eq_true] at hv
        simp only [hv, Bool.false_eq_true, if_false, Prod.mk.injEq] at h
        exact ih _ _ _ _ (Prod.ext h.1 rfl)
    · simp [hlt] at h

/-- C1 (amended): a candidate returned by `findAvailableSlot` passes the
spacing check against the supplied existing events; `findAvailableSlot`
itself performs no primary-calendar conflict check (the Conflict Checker
runs separately in `proposeCreateInternal` when the candidate is turned
into a proposal). -/
theorem C1_returned_candidate_passes_spacing (w : Workout) (evts : List EEvent)
    (m : Nat) (c : Workout) (h : findAvailableSlot w evts m = some c) :
    (checkEventSpacing (candSEvent c) (evts.map toSEvent)).valid = true := by
  rw [findAvailableSlot] at h
  exact findAvailableSlotGo_some_spacing evts m _ _ _ m 0 _ c
    (findAvailableSlotRun w evts m).2 (Prod.ext h rfl)

/-- C1 witness: for a valid conflict-free Monday 07:00-08:00 run against an
empty set of existing events, `findAvailableSlot` returns the candidate
itself, and the theorem yields that it passes the spacing check. -/
theorem C1_returned_candidate_passes_spacing_witness :
    findAvailableSlot
        { title_short := "Run".toList, start_local := "2025-01-06T07:00:00-05:00".toList
          end_local := "2025-01-06T08:00:00-05:00".toList } [] 14 =
      some { title_short := "Run".toList, start_local := "2025-01-06T07:00:00-05:00".toList
             end_local := "2025-01-06T08:00:00-05:00".toList } ∧
    (checkEventSpacing
      (candSEvent { title_short := "Run".toList
                    start_local := "2025-01-06T07:00:00-05:00".toList
                    end_local := "2025-01-06T08:00:00-05:00".toList })
      (([] : List EEvent).map toSEvent)).valid = true :=
  ⟨by decide, C1_returned_candidate_passes_spacing
    { title_short := "Run".toList, start_local := "2025-01-06T07:00:00-05:00".toList
      end_local := "2025-01-06T08:00:00-05:00".toList } [] 14 _ (by decide)⟩

/-- C1 counterexample: the claim as stated is false — the candidate
returned by `findAvailableSlot` need not pass the primary-calendar conflict
check, because `findAvailableSlot` never consults the primary calendar.
Here the returned Monday 07:00-08:00 candidate overlaps a blocking
"Standup" primary event, so `checkConflicts` reports a non-empty blocking
list for it. -/
theorem C1_counterexample_no_conflict_check :
    findAvailableSlot
        { title_short := "Run".toList, start_local := "2025-01-06T07:00:00-05:00".toList
          end_local := "2025-01-06T08:00:00-05:00".toList } [] 14 =
      some { title_short := "Run".toList, start_local := "2025-01-06T07:00:00-05:00".toList
             end_local := "2025-01-06T08:00:00-05:00".toList } ∧
    (checkConflicts "2025-01-06T07:00:00-05:00".toList "2025-01-06T08:00:00-05:00".toList
      [{ id := "g3".toList, summary := some "Standup".toList
         start := { dateTime := some "2025-01-06T07:30:00-05:00".toList }
         gend := { dateTime := some "2025-01-06T08:30:00-05:00".toList } }]).blocking ≠
      [] := by
  constructor
  · decide
  · decide

/-! ## Claim C9: the allowed-hours verdict ignores the offset suffix -/

theorem parseTimeFromISO_suffix_any (y m d h mi s : Nat) (suffix : Str) :
    parseTimeFromISO (isoBody y m d h mi s ++ suffix) =
      parseTimeFromISO (isoBody y m d h mi s ++ []) := by
  rw [parseTimeFromISO, scanTime_isoBody, scanDate_isoBody,
    parseTimeFromISO, scanTime_isoBody, scanDate_isoBody]

/-- C9: `withinAllowedHours` reads only the literal date and hour:minute
digits of its arguments, never the trailing suffix: replacing the suffixes
after the two well-formed timestamp bodies (in particular, replacing the
UTC-offset suffixes) never changes the verdict; and two representations of
the same instant with different offsets can receive different verdicts (a
Monday 14:00 UTC hour written as `09:00-05:00` fails the weekday policy but
written as `19:00+05:00` passes it). -/
theorem C9_verdict_ignores_offset_suffix :
    (∀ (y1 m1 d1 h1 mi1 s1 y2 m2 d2 h2 mi2 s2 : Nat) (suf1 suf2 suf1' suf2' : Str),
      withinAllowedHours (isoBody y1 m1 d1 h1 mi1 s1 ++ suf1)
          (isoBody y2 m2 d2 h2 mi2 s2 ++ suf2) =
        withinAllowedHours (isoBody y1 m1 d1 h1 mi1 s1 ++ suf1')
          (isoBody y2 m2 d2 h2 mi2 s2 ++ suf2')) ∧
    (jsParseDate "2025-01-06T09:00:00-05:00".toList =
        jsParseDate "2025-01-06T19:00:00+05:00".toList ∧
      jsParseDate "2025-01-06T10:00:00-05:00".toList =
        jsParseDate "2025-01-06T20:00:00+05:00".toList ∧
      withinAllowedHours "2025-01-06T09:00:00-05:00".toList
        "2025-01-06T10:00:00-05:00".toList = false ∧
      withinAllowedHours "2025-01-06T19:00:00+05:00".toList
        "2025-01-06T20:00:00+05:00".toList = true) := by
  constructor
  · intro y1 m1 d1 h1 mi1 s1 y2 m2 d2 h2 mi2 s2 suf1 suf2 suf1' suf2'
    rw [withinAllowedHours, withinAllowedHours,
      parseTimeFromISO_suffix_any y1 m1 d1 h1 mi1 s1 suf1,
      parseTimeFromISO_suffix_any y1 m1 d1 h1 mi1 s1 suf1',
      parseTimeFromISO_suffix_any y2 m2 d2 h2 mi2 s2 suf2,
      parseTimeFromISO_suffix_any y2 m2 d2 h2 mi2 s2 suf2']
  · exact ⟨by decide, by decide, by decide, by decide⟩

/-! ## Claim C4: the allowed-hours boundaries -/

/-- The weekday allowed-hours window exactly as the spec's words state it,
in minutes after midnight: start within [06:30, 09:30) and end at or before
09:30, or start at or after 18:00 (for comparison with the
implementation). -/
def specWeekdayAllowed (startMin endMin : Nat) : Prop :=
  (390 ≤ startMin ∧ startMin < 570 ∧ endMin ≤ 570) ∨ 1080 ≤ startMin

instance (s e : Nat) : Decidable (specWeekdayAllowed s e) := by
  unfold specWeekdayAllowed
  infer_instance

/-- C4 (amended to intervals whose start and end lie on the same calendar
date): on a weekend any time passes; on a weekday, with start strictly
before end, `withinAllowedHours` passes exactly when the spec's window
condition holds — start within [06:30, 09:30) with end at or before 09:30,
or start at or after 18:00. -/
theorem C4_allowed_hours_boundaries (y m d h1 mi1 s1 h2 mi2 s2 : Nat) (off1 off2 : Str)
    (hy : y ≤ 9999) (hciv : civilOk y m d = true)
    (hh1 : h1 ≤ 23) (hmi1 : mi1 ≤ 59) (hh2 : h2 ≤ 23) (hmi2 : mi2 ≤ 59)
    (hlt : 60 * h1 + mi1 < 60 * h2 + mi2) :
    ((dayOfWeek y m d = 0 ∨ dayOfWeek y m d = 6) →
      withinAllowedHours (mkISO y m d h1 mi1 s1 off1) (mkISO y m d h2 mi2 s2 off2) =
        true) ∧
    (¬(dayOfWeek y m d = 0 ∨ dayOfWeek y m d = 6) →
      (withinAllowedHours (mkISO y m d h1 mi1 s1 off1) (mkISO y m d h2 mi2 s2 off2) =
          true ↔ specWeekdayAllowed (60 * h1 + mi1) (60 * h2 + mi2))) := by
  have hm99 : m ≤ 99 := by
    simp only [civilOk, decide_eq_true_eq] at hciv
    omega
  have hd99 : d ≤ 99 := by
    simp only [civilOk, daysInMonth] at hciv
    split at hciv <;> split at hciv <;> simp only [decide_eq_true_eq] at hciv <;> omega
  have hday : jsGetDay y m d = some (dayOfWeek y m d) := by simp [jsGetDay, hciv]
  rw [withinAllowedHours, mkISO, mkISO,
    parseTimeFromISO_isoBody s1 off1 hy hm99 hd99 (by omega) (by omega),
    parseTimeFromISO_isoBody s2 off2 hy hm99 hd99 (by omega) (by omega), hday]
  constructor
  · intro hwk
    rcases hwk with hwk | hwk <;> simp [oeqB, hwk]
  · intro hwk
    push_neg at hwk
    simp only [oeqB, ogtB, ogeB, oltB, oleB, decide_eq_true_eq, specWeekdayAllowed]
    rw [decide_eq_false hwk.1, decide_eq_false hwk.2]
    simp only [Bool.or_false, Bool.not_false, if_true, Bool.if_true_left, Bool.or_eq_true,
      Bool.and_eq_true, Bool.or_eq_true, decide_eq_true_eq]
    constructor
    · rintro (⟨hms, hme⟩ | hev)
      · rcases hms with hms | ⟨hms6, hms30⟩ <;> rcases hme with hme | ⟨hme9, hme30⟩ <;>
          [left; left; left; left] <;> refine ⟨by omega, by omega, by omega⟩
      · right; omega
    · rintro (⟨hs1, hs2, he⟩ | hev)
      · left
        constructor
        · by_cases h6 : h1 = 6
          · exact Or.inr ⟨by omega, by omega⟩
          · exact Or.inl (by omega)
        · by_cases h9 : h2 = 9
          · exact Or.inr ⟨by omega, by omega⟩
          · exact Or.inl (by omega)
      · right; omega

/-- C4 witness: on Monday 2025-01-06 a 06:30-09:30 candidate passes, one
ending 09:31 fails, and one starting 17:59 fails. -/
theorem C4_allowed_hours_boundaries_witness :
    mkISO 2025 1 6 6 30 0 "-05:00".toList = "2025-01-06T06:30:00-05:00".toList ∧
    withinAllowedHours "2025-01-06T06:30:00-05:00".toList
      "2025-01-06T09:30:00-05:00".toList = true ∧
    withinAllowedHours "2025-01-06T06:30:00-05:00".toList
      "2025-01-06T09:31:00-05:00".toList = false ∧
    withinAllowedHours "2025-01-06T17:59:00-05:00".toList
      "2025-01-06T18:59:00-05:00".toList = false := by
  refine ⟨by decide, ?_, ?_, ?_⟩
  · have h := ((C4_allowed_hours_boundaries 2025 1 6 6 30 0 9 30 0
      "-05:00".toList "-05:00".toList (by norm_num) (by decide) (by norm_num)
      (by norm_num) (by norm_num) (by norm_num) (by norm_num)).2
      (by decide)).mpr (by decide)
    exact (show mkISO 2025 1 6 6 30 0 "-05:00".toList =
      "2025-01-06T06:30:00-05:00".toList from by decide) ▸ h
  · have h := (C4_allowed_hours_boundaries 2025 1 6 6 30 0 9 31 0
      "-05:00".toList "-05:00".toList (by norm_num) (by decide) (by norm_num)
      (by norm_num) (by norm_num) (by norm_num) (by norm_num)).2 (by decide)
    have h2 : ¬ specWeekdayAllowed (60 * 6 + 30) (60 * 9 + 31) := by decide
    have h3 := fun hv => h2 (h.mp hv)
    rw [show mkISO 2025 1 6 6 30 0 "-05:00".toList =
      "2025-01-06T06:30:00-05:00".toList from by decide,
      show mkISO 2025 1 6 9 31 0 "-05:00".toList =
      "2025-01-06T09:31:00-05:00".toList from by decide] at h3
    exact Bool.eq_false_iff.mpr h3
  · have h := (C4_allowed_hours_boundaries 2025 1 6 17 59 0 18 59 0
      "-05:00".toList "-05:00".toList (by norm_num) (by decide) (by norm_num)
      (by norm_num) (by norm_num) (by norm_num) (by norm_num)).2 (by decide)
    have h2 : ¬ specWeekdayAllowed (60 * 17 + 59) (60 * 18 + 59) := by decide
    have h3 := fun hv => h2 (h.mp hv)
    rw [show mkISO 2025 1 6 17 59 0 "-05:00".toList =
      "2025-01-06T17:59:00-05:00".toList from by decide,
      show mkISO 2025 1 6 18 59 0 "-05:00".toList =
      "2025-01-06T18:59:00-05:00".toList from by decide] at h3
    exact Bool.eq_false_iff.mpr h3

/-- C4 counterexample: for a cross-day interval the claimed "iff" fails as
stated: the weekday candidate starting Monday 09:30 (not within
[06:30, 09:30) and before 18:00) and ending the next day at 09:00 starts
strictly before it ends, yet `withinAllowedHours` passes it, because the
code only requires start at or after 06:30 and an end time-of-day at or
before 09:30. -/
theorem C4_counterexample_cross_day :
    parseTimeFromISO "2025-01-06T09:30:00-05:00".toList =
      { hour := some 9, minute := some 30, day := some 1 } ∧
    oltB2 (jsParseDate "2025-01-06T09:30:00-05:00".toList)
      (jsParseDate "2025-01-07T09:00:00-05:00".toList) = true ∧
    ¬ specWeekdayAllowed (60 * 9 + 30) (60 * 9 + 0) ∧
    withinAllowedHours "2025-01-06T09:30:00-05:00".toList
      "2025-01-07T09:00:00-05:00".toList = true := by
  exact ⟨by decide, by decide, by decide, by decide⟩

/-! ## Claim C10: validity and idempotence of `rescheduleToValidSlot` -/

theorem rescheduleToValidSlot_of_valid (w : Workout)
    (h : isValidWorkoutTime w.start_local w.end_local = true) :
    rescheduleToValidSlot w = w := by
  rw [rescheduleToValidSlot]
  simp [h]

theorem civilOk_le99 {y : Int} {m d : Nat} (h : civilOk y m d = true) :
    m ≤ 99 ∧ d ≤ 99 := by
  simp only [civilOk, daysInMonth] at h
  constructor
  · split at h <;> split at h <;> simp only [decide_eq_true_eq] at h <;> omega
  · split at h <;> split at h <;> simp only [decide_eq_true_eq] at h <;> omega

/-- A well-formed weekday-invalid workout is rescheduled to a slot that
passes the function's own validity test. -/
theorem rescheduleToValidSlot_valid (w : Workout)
    (y m d h mi s : Nat) (off : Str)
    (hs : w.start_local = mkISO y m d h mi s off)
    (hy : y ≤ 9999) (hciv : civilOk y m d = true) (hh : h ≤ 23) (hmi : mi ≤ 59)
    (hofflen : off.length = 6) (hoffsh : tzShape off = true)
    {δ : Int} (hdur : effDuration w = some δ) (hδ : 0 ≤ δ) :
    isValidWorkoutTime (rescheduleToValidSlot w).start_local
      (rescheduleToValidSlot w).end_local = true := by
  obtain ⟨hm99, hd99⟩ := civilOk_le99 hciv
  by_cases hv : isValidWorkoutTime w.start_local w.end_local
  · rw [rescheduleToValidSlot_of_valid w hv]
    exact hv
  · have hv' : isValidWorkoutTime w.start_local w.end_local = false :=
      Bool.eq_false_iff.mpr hv
    have hps : parseTimeFromISO w.start_local =
        { hour := some (h : Int), minute := some (mi : Int)
          day := some (dayOfWeek y m d) } := by
      rw [hs, mkISO, parseTimeFromISO_isoBody s off hy hm99 hd99 (by omega) (by omega)]
      simp [jsGetDay, hciv]
    have hwkF : (oeqB (some (dayOfWeek y m d)) 0 || oeqB (some (dayOfWeek y m d)) 6) =
        false := by
      have := hv'
      simp only [isValidWorkoutTime, hps] at this
      rcases Bool.or_eq_false_iff.mp this with ⟨h1, _⟩
      exact (Bool.or_eq_false_iff.mp h1).1
    have hfd : δ.fdiv 60 = δ / 60 := Int.fdiv_eq_ediv δ (by norm_num)
    have htm : δ.tmod 60 = δ % 60 := Int.tmod_eq_emod hδ (by norm_num)
    have hr0 : 0 ≤ δ % 60 := Int.emod_nonneg δ (by norm_num)
    have hr60 : δ % 60 < 60 := Int.emod_lt_of_pos δ (by norm_num)
    have hq0 : 0 ≤ δ / 60 := Int.ediv_nonneg hδ (by norm_num)
    have hfd30 : (δ + 30).fdiv 60 = (δ + 30) / 60 := Int.fdiv_eq_ediv _ (by norm_num)
    have htm30 : (δ + 30).tmod 60 = (δ + 30) % 60 := Int.tmod_eq_emod (by omega) (by norm_num)
    have hr300 : 0 ≤ (δ + 30) % 60 := Int.emod_nonneg _ (by norm_num)
    have hr3060 : (δ + 30) % 60 < 60 := Int.emod_lt_of_pos _ (by norm_num)
    have hq300 : 0 ≤ (δ + 30) / 60 := Int.ediv_nonneg (by omega) (by norm_num)
    have e1 : oadd (some 7) (ofloorDiv (some δ) 60) = some (7 + δ / 60) := by
      simp [oadd, ofloorDiv, hfd]
    have e2 : oadd (some 0) (orem (some δ) 60) = some (δ % 60) := by
      simp [oadd, orem, htm]
    have e2' : oadd (some 0) (some (δ % 60)) = some (δ % 60) := by
      simp [oadd]
    have e3 : oadd (some (7 + δ / 60)) (ofloorDiv (some (δ % 60)) 60) =
        some (7 + δ / 60) := by
      have : (δ % 60).fdiv 60 = 0 := by
        rw [Int.fdiv_eq_ediv _ (by norm_num)]
        omega
      simp [oadd, ofloorDiv, this]
    have e4 : orem (some (δ % 60)) 60 = some (δ % 60) := by
      have : (δ % 60).tmod 60 = δ % 60 := by
        rw [Int.tmod_eq_emod hr0 (by norm_num)]
        omega
      simp [orem, this]
    have e5 : oadd (some δ) (some 30) = some (δ + 30) := by simp [oadd]
    have e6 : oadd (some 6) (ofloorDiv (some (δ + 30)) 60) = some (6 + (δ + 30) / 60) := by
      simp [oadd, ofloorDiv, hfd30]
    have e7 : orem (some (δ + 30)) 60 = some ((δ + 30) % 60) := by
      simp [orem, htm30]
    have e8 : oadd (some 18) (ofloorDiv (some δ) 60) = some (18 + δ / 60) := by
      simp [oadd, ofloorDiv, hfd]
    have e9 : orem (some δ) 60 = some (δ % 60) := by simp [orem, htm]
    rw [rescheduleToValidSlot]
    simp only [hps, hdur, hv', Bool.false_eq_true, if_false, hwkF, Bool.not_false, if_true,
      e1, e2, e2', e3, e4, e5, e6, e7, e8, e9]
    by_cases hb1 : (oltB (some (7 + δ / 60)) 9 ||
        (oeqB (some (7 + δ / 60)) 9 && oleB (some (δ % 60)) 30)) = true
    · have hb1' : 7 + δ / 60 < 9 ∨ (7 + δ / 60 = 9 ∧ δ % 60 ≤ 30) := by
        simpa [oltB, oeqB, oleB] using hb1
      have hfe9 : 7 + δ / 60 ≤ 9 := by omega
      rw [hb1]
      simp only [if_true]
      rw [hs, createISOString_mkISO hofflen hoffsh (by norm_num) (by norm_num)
          (by norm_num) (by norm_num),
        createISOString_mkISO hofflen hoffsh (by omega) (by omega) hr0 (by omega)]
      rw [isValidWorkoutTime, mkISO, mkISO,
        parseTimeFromISO_isoBody 0 off hy hm99 hd99 (by norm_num) (by norm_num),
        parseTimeFromISO_isoBody 0 off hy hm99 hd99 (by omega) (by omega)]
      simp only [jsGetDay, hciv, if_true]
      have t7 : ((7 : Int).toNat : Int) = 7 := by norm_num
      have tfe : (((7 + δ / 60).toNat : Nat) : Int) = 7 + δ / 60 :=
        Int.toNat_of_nonneg (by omega)
      have tfm : (((δ % 60).toNat : Nat) : Int) = δ % 60 := Int.toNat_of_nonneg hr0
      simp only [t7, tfe, tfm, hwkF, Bool.not_false, oeqB, ogtB, ogeB, oltB, oleB,
        Bool.if_true_left]
      simp only [decide_eq_true_eq, Bool.or_eq_true, Bool.and_eq_true, decide_eq_true_eq]
      rcases hb1' with hlt | ⟨heq, hle⟩
      · exact Or.inl (Or.inr ⟨Or.inl (by norm_num), Or.inl hlt⟩)
      · exact Or.inl (Or.inr ⟨Or.inl (by norm_num), Or.inr ⟨heq, hle⟩⟩)
    · have hb1f : (oltB (some (7 + δ / 60)) 9 ||
          (oeqB (some (7 + δ / 60)) 9 && oleB (some (δ % 60)) 30)) = false :=
        Bool.eq_false_iff.mpr hb1
      rw [hb1f]
      simp only [Bool.false_eq_true, if_false]
      by_cases hb2 : (oltB (some (6 + (δ + 30) / 60)) 9 ||
          (oeqB (some (6 + (δ + 30) / 60)) 9 && oleB (some ((δ + 30) % 60)) 30)) = true
      · have hb2' : 6 + (δ + 30) / 60 < 9 ∨
            (6 + (δ + 30) / 60 = 9 ∧ (δ + 30) % 60 ≤ 30) := by
          simpa [oltB, oeqB, oleB] using hb2
        have hfe9 : 6 + (δ + 30) / 60 ≤ 9 := by omega
        rw [hb2]
        simp only [if_true]
        rw [hs, createISOString_mkISO hofflen hoffsh (by norm_num) (by norm_num)
            (by norm_num) (by norm_num),
          createISOString_mkISO hofflen hoffsh (by omega) (by omega) hr300 (by omega)]
        rw [isValidWorkoutTime, mkISO, mkISO,
          parseTimeFromISO_isoBody 0 off hy hm99 hd99 (by norm_num) (by norm_num),
          parseTimeFromISO_isoBody 0 off hy hm99 hd99 (by omega) (by omega)]
        simp only [jsGetDay, hciv, if_true]
        have t6 : ((6 : Int).toNat : Int) = 6 := by norm_num
        have t30 : ((30 : Int).toNat : Int) = 30 := by norm_num
        have tfe : (((6 + (δ + 30) / 60).toNat : Nat) : Int) = 6 + (δ + 30) / 60 :=
          Int.toNat_of_nonneg (by omega)
        have tfm : ((((δ + 30) % 60).toNat : Nat) : Int) = (δ + 30) % 60 :=
          Int.toNat_of_nonneg hr300
        simp only [t6, t30, tfe, tfm, hwkF, Bool.not_false, oeqB, ogtB, ogeB, oltB, oleB,
          Bool.if_true_left]
        simp only [decide_eq_true_eq, Bool.or_eq_true, Bool.and_eq_true, decide_eq_true_eq]
        rcases hb2' with hlt | ⟨heq, hle⟩
        · exact Or.inl (Or.inr ⟨Or.inr ⟨by norm_num, by norm_num⟩, Or.inl hlt⟩)
        · exact Or.inl (Or.inr ⟨Or.inr ⟨by norm_num, by norm_num⟩, Or.inr ⟨heq, hle⟩⟩)
      · have hb2f : (oltB (some (6 + (δ + 30) / 60)) 9 ||
            (oeqB (some (6 + (δ + 30) / 60)) 9 && oleB (some ((δ + 30) % 60)) 30)) =
            false := Bool.eq_false_iff.mpr hb2
        rw [hb2f]
        simp only [Bool.false_eq_true, if_false]
        rw [hs, createISOString_mkISO hofflen hoffsh (by norm_num) (by norm_num)
            (by norm_num) (by norm_num)]
        rw [isValidWorkoutTime, mkISO,
          parseTimeFromISO_isoBody 0 off hy hm99 hd99 (by norm_num) (by norm_num)]
        simp only [jsGetDay, hciv, if_true]
        have t18 : ((18 : Int).toNat : Int) = 18 := by norm_num
        simp only [t18, hwkF, Bool.not_false, ogeB, decide_eq_true_eq]
        simp

/-- C10 (amended to workouts with a nonnegative effective duration): for a
workout whose start and end are well-formed ISO local timestamps and whose
effective duration is nonnegative, the output of `rescheduleToValidSlot`
satisfies the validity predicate the function itself tests, and
consequently applying it a second time returns its input unchanged. -/
theorem C10_reschedule_valid_idempotent (w : Workout)
    (y m d h mi s y2 m2 d2 h2 mi2 s2 : Nat) (off off2 : Str)
    (hs : w.start_local = mkISO y m d h mi s off)
    (_he : w.end_local = mkISO y2 m2 d2 h2 mi2 s2 off2)
    (hy : y ≤ 9999) (hciv : civilOk y m d = true) (hh : h ≤ 23) (hmi : mi ≤ 59)
    (hofflen : off.length = 6) (hoffsh : tzShape off = true)
    {δ : Int} (hdur : effDuration w = some δ) (hδ : 0 ≤ δ) :
    isValidWorkoutTime (rescheduleToValidSlot w).start_local
        (rescheduleToValidSlot w).end_local = true ∧
    rescheduleToValidSlot (rescheduleToValidSlot w) = rescheduleToValidSlot w := by
  have hval := rescheduleToValidSlot_valid w y m d h mi s off hs hy hciv hh hmi
    hofflen hoffsh hdur hδ
  exact ⟨hval, rescheduleToValidSlot_of_valid _ hval⟩

/-- C10 witness: a Monday 10:00-11:00 workout (invalid weekday time) is
rescheduled to 07:00-08:00, which passes the validity test, and a second
application leaves it unchanged. -/
theorem C10_reschedule_valid_idempotent_witness :
    rescheduleToValidSlot
        { title_short := "Run".toList, start_local := "2025-01-06T10:00:00-05:00".toList
          end_local := "2025-01-06T11:00:00-05:00".toList } =
      { title_short := "Run".toList, start_local := "2025-01-06T07:00:00-05:00".toList
        end_local := "2025-01-06T08:00:00-05:00".toList } ∧
    isValidWorkoutTime
      (rescheduleToValidSlot
        { title_short := "Run".toList, start_local := "2025-01-06T10:00:00-05:00".toList
          end_local := "2025-01-06T11:00:00-05:00".toList }).start_local
      (rescheduleToValidSlot
        { title_short := "Run".toList, start_local := "2025-01-06T10:00:00-05:00".toList
          end_local := "2025-01-06T11:00:00-05:00".toList }).end_local = true ∧
    rescheduleToValidSlot (rescheduleToValidSlot
        { title_short := "Run".toList, start_local := "2025-01-06T10:00:00-05:00".toList
          end_local := "2025-01-06T11:00:00-05:00".toList }) =
      rescheduleToValidSlot
        { title_short := "Run".toList, start_local := "2025-01-06T10:00:00-05:00".toList
          end_local := "2025-01-06T11:00:00-05:00".toList } := by
  have h := C10_reschedule_valid_idempotent
    { title_short := "Run".toList, start_local := "2025-01-06T10:00:00-05:00".toList
      end_local := "2025-01-06T11:00:00-05:00".toList }
    2025 1 6 10 0 0 2025 1 6 11 0 0 "-05:00".toList "-05:00".toList
    (by decide) (by decide) (by norm_num) (by decide) (by norm_num) (by norm_num)
    (by decide) (by decide) (δ := 60) (by decide) (by norm_num)
  exact ⟨by decide, h.1, h.2⟩

/-- C10 counterexample: the claim as stated quantifies over every workout
whose start and end are well-formed ISO local timestamps, but with a stored
`duration_minutes` of -421 the weekday reschedule renders the impossible
end time `T-2:-1:00`, and the output fails the function's own validity
predicate (its start is 07:00 but its end is unparseable), refuting the
claimed validity (and with it the claimed consequence). -/
theorem C10_counterexample_negative_duration :
    (rescheduleToValidSlot
        { title_short := "X".toList, start_local := "2025-01-06T10:00:00-05:00".toList
          end_local := "2025-01-06T11:00:00-05:00".toList
          duration_minutes := some (-421) }).end_local =
      "2025-01-06T-2:-1:00-05:00".toList ∧
    isValidWorkoutTime
      (rescheduleToValidSlot
        { title_short := "X".toList, start_local := "2025-01-06T10:00:00-05:00".toList
          end_local := "2025-01-06T11:00:00-05:00".toList
          duration_minutes := some (-421) }).start_local
      (rescheduleToValidSlot
        { title_short := "X".toList, start_local := "2025-01-06T10:00:00-05:00".toList
          end_local := "2025-01-06T11:00:00-05:00".toList
          duration_minutes := some (-421) }).end_local = false := by
  exact ⟨by decide, by decide⟩

end TrainingAgent
